import Mathlib

/-!
# SecureHire backend — credential & trust-badge lifecycle, shallow embedding

This file embeds the credential / trust-badge lifecycle engine of the
SecureHire backend (TypeScript + MongoDB) as executable Lean definitions and
proves properties of the spec against them.

Modelling conventions:
* Mongo collections are Lean lists; `updateOne` / `findOneAndUpdate` update the
  first matching element, `updateMany` updates all, `deleteMany` filters,
  `create` appends, and upserts update-or-append on the upsert key.
* External network calls (the on-chain trust-badge registry and the BBS+
  signing service) are modelled by outcome parameters: the route is a pure
  function of the store and the outcomes of the external calls it makes.
* Signed credential documents (`vcRaw`, `revealedDocument`) are opaque strings;
  `JSON.parse(JSON.stringify(x))` deep-cloning is the identity on them.
* JavaScript string truthiness (`if (!doc.did)`) is modelled explicitly:
  a missing value or the empty string is falsy.
-/

namespace SecureHire

/-- Credential lifecycle status (`models/Credential` enum). -/
inductive CredStatus
  | active
  | revoked
  | expired
deriving DecidableEq, Repr

/-- Trust-badge status (`models/Recruiter` badge.status enum). -/
inductive BadgeStatus
  | None
  | Pending
  | Active
  | Revoked
  | Rejected
deriving DecidableEq, Repr

/-- Recruiter KYC status (`models/Recruiter` kycStatus enum). -/
inductive KycStatus
  | none
  | pending
  | approved
  | rejected
deriving DecidableEq, Repr

/-- Per-role state stored on the user's role container (`models/User`). -/
inductive RoleState
  | none
  | pending
  | active
  | rejected
deriving DecidableEq, Repr

/-- Trust status values returned by the chain service / job tagging. -/
inductive TrustStatus
  | Active
  | Suspended
  | Revoked
  | None
deriving DecidableEq, Repr

/-- Application workflow status (`models/Application` status enum). -/
inductive AppStatus
  | submitted
  | withdrawn
  | shortlisted
  | rejected
  | hired
deriving DecidableEq, Repr

/-- A confirmed ledger transaction, `{ txHash, network }` as returned by the
chain service helpers. -/
structure TxResult where
  txHash : String
  network : String
deriving DecidableEq, Repr

/-- Outcome of a ledger write (`issueRecruiterBadgeOnChain`, and
`revokeRecruiterBadgeOnChain`, whose body is not under `src/`).
Modelled from the spec: `issueBadge(did, level) → txHash` /
`revokeBadge(orgDID) → {txRef, network}`; the call either confirms a
transaction or fails (throws). -/
inductive LedgerOutcome
  | ok (tx : TxResult)
  | fail
deriving DecidableEq, Repr

/-- Outcome of a ledger badge read (`contract.getBadge(did)`): either the call
errors, or it returns a `(level, statusCode)` pair. -/
inductive LedgerRead
  | err
  | ok (level : Nat) (statusCode : Nat)
deriving DecidableEq, Repr

/-- Outcome of the external BBS+ signing exchange (`issueSimpleVc`):
either a signed credential with its id, document and type tags, or a failure
(thrown transport / issuer-key error). -/
inductive SignOutcome
  | ok (vcId : String) (vcRaw : String) (vctype : List String)
  | fail
deriving DecidableEq, Repr

/-- `models/Credential` — the authoritative credential record. -/
structure Credential where
  credentialId : String
  subjectDid : String
  issuerDid : String
  type : List String
  status : CredStatus
  revokedAt : Bool
  revokeReason : Option String
  onChainTxHash : Option String
  revocationTxHash : Option String
  network : Option String
  vcRaw : Option String
deriving DecidableEq, Repr

/-- Recruiter trust-badge projection (`models/Recruiter` badge subdocument). -/
structure Badge where
  verified : Bool
  status : Option BadgeStatus
  level : Option Nat
  txHash : Option String
  network : Option String
  credentialId : Option String
  revokedAt : Bool
  revokeReason : Option String
  revocationTxHash : Option String
deriving DecidableEq, Repr

/-- `models/Recruiter` — organisation record; `rid` is the Mongo `_id`. -/
structure Recruiter where
  rid : String
  did : String
  onboarded : Bool
  kycStatus : KycStatus
  badge : Badge
deriving DecidableEq, Repr

/-- Entry of a seeker's denormalized `vcs[]` array (credential summaries);
only the fields the revocation cascade touches are modelled. The entry status
is the raw string stored in Mongo (`"active"` / `"revoked"`). -/
structure VcEntry where
  credentialId : String
  status : String
deriving DecidableEq, Repr

/-- `models/Seeker` — holder record; `sid` is the Mongo `_id`.
`did` is optional (sparse unique index); `email` is `""` when unset. -/
structure Seeker where
  sid : String
  did : Option String
  email : String
  name : String
  onboarded : Bool
  homeLocation : Option String
  classif : Option String
  vcs : List VcEntry
  defaultSharedVcIds : List String
deriving DecidableEq, Repr

/-- `models/Application` — sharing context; `appId` is the Mongo `_id`. -/
structure Application where
  appId : String
  jobId : String
  seekerDid : String
  recruiterDid : String
  sharedVcIds : List String
  status : AppStatus
deriving DecidableEq, Repr

/-- `models/Proofs` `SharedProof` — one stored disclosure per
(applicationId, vcId) (unique compound index). -/
structure SharedProof where
  applicationId : String
  jobId : Option String
  seekerDid : String
  recruiterDid : String
  vcId : String
  derivedProof : Option String
  nonce : Option String
  revealedDocument : Option String
deriving DecidableEq, Repr

/-- The document store: one list per collection. Issuers only matter as a set
of DIDs for the routes modelled here. -/
structure Store where
  credentials : List Credential
  seekers : List Seeker
  recruiters : List Recruiter
  applications : List Application
  sharedProofs : List SharedProof
  issuers : List String
deriving DecidableEq, Repr

/-- Mongo `updateOne` / `findOneAndUpdate`: apply `f` to the first element
satisfying `p`, leave the rest unchanged. -/
def updateFirst (p : α → Bool) (f : α → α) : List α → List α
  | [] => []
  | x :: xs => if p x then f x :: xs else x :: updateFirst p f xs

/-! ## Role-state derivation (`middleware/syncRecruiterRoleFromRecruiterDoc.ts`) -/

/-- `computeRecruiterRoleState` — pure derivation of the recruiter role state
from the recruiter record (`badge?.status ?? "None"` is the `getD`). -/
def computeRecruiterRoleState (recruiter : Option Recruiter) : RoleState :=
  match recruiter with
  | none => RoleState.none
  | some r =>
    if !r.onboarded then RoleState.none
    else
      match r.badge.status.getD BadgeStatus.None with
      | BadgeStatus.Active => RoleState.active
      | BadgeStatus.Pending => RoleState.pending
      | BadgeStatus.Revoked => RoleState.rejected
      | BadgeStatus.Rejected => RoleState.rejected
      | _ => RoleState.pending

/-- The role-sync middleware's write-on-change step: set the cached recruiter
role state to the desired value when it differs (`user.roles.recruiter`). -/
def syncRecruiterRole (cached : RoleState) (recruiter : Option Recruiter) : RoleState :=
  let desired := computeRecruiterRoleState recruiter
  if cached != desired then desired else cached

/-! ## Trust-status reads (`services/chain.service.ts`, `routes/jobs.ts`) -/

/-- `getRecruiterTrustStatusFromChain` — decode a badge read; any error
reaching the ledger is caught and yields `"None"`. -/
def getRecruiterTrustStatusFromChain (read : LedgerRead) : TrustStatus :=
  match read with
  | LedgerRead.err => TrustStatus.None
  | LedgerRead.ok level s =>
    if level == 0 then TrustStatus.None
    else if s == 1 then TrustStatus.Active
    else if s == 2 then TrustStatus.Suspended
    else if s == 3 then TrustStatus.Revoked
    else TrustStatus.None

/-- `computeTrustStatusForJob` — option A uses the chain when the registry
address is configured; option B falls back to the recruiter document only
(`recruiter?.badge?.verified`). -/
def computeTrustStatusForJob (registryConfigured : Bool) (read : LedgerRead)
    (recruiter : Option Recruiter) : TrustStatus :=
  if registryConfigured then getRecruiterTrustStatusFromChain read
  else
    match recruiter with
    | some r => if r.badge.verified then TrustStatus.Active else TrustStatus.None
    | none => TrustStatus.None

/-! ## Disclosure filtering (`routes/applications.ts`) -/

/-- `filterActiveSharedProofs` — keep only the stored disclosures whose
credential currently has status `active` in the credential store. -/
def filterActiveSharedProofs (creds : List Credential)
    (sharedProofs : List SharedProof) : List SharedProof :=
  if sharedProofs.isEmpty then []
  else
    let vcIds := ((sharedProofs.map (fun p => p.vcId)).filter (fun s => s != "")).dedup
    if vcIds.isEmpty then []
    else
      let activeCreds := creds.filter
        (fun c => vcIds.contains c.credentialId && c.status == CredStatus.active)
      let activeSet := activeCreds.map (fun c => c.credentialId)
      sharedProofs.filter (fun p => activeSet.contains p.vcId)

/-! ## String constants used by the routes -/

def emptyStr : String := ""

def recruiterCredentialTag : String := "RecruiterCredential"

def revokedStr : String := "revoked"

def unspecifiedStr : String := "unspecified"

def didPkhScheme : String := "did:pkh:"

def pkhChainBase : String := "did:pkh:eip155:80002:"

def zeroX : String := "0x"

/-- `reason || "unspecified"` (an absent body field is the empty string). -/
def reasonOrUnspecified (reason : String) : String :=
  if reason == "" then unspecifiedStr else reason

/-! ## Revocation cascade (`routes/recruiters.ts`, POST /issuer/vc/revoke) -/

/-- `Credential.findOne({ credentialId, issuerDid })` — the ownership-checked
credential load. -/
def findCredentialOwned (creds : List Credential) (credentialId issuerDid : String) :
    Option Credential :=
  creds.find? (fun c => c.credentialId == credentialId && c.issuerDid == issuerDid)

/-- Step 1 of the cascade: `findOneAndUpdate` setting status `revoked`,
`revokedAt` and `revokeReason` on the owned credential. -/
def markCredentialRevoked (creds : List Credential) (credentialId issuerDid reason : String) :
    List Credential :=
  updateFirst (fun c => c.credentialId == credentialId && c.issuerDid == issuerDid)
    (fun c => { c with status := CredStatus.revoked, revokedAt := true,
                       revokeReason := some (reasonOrUnspecified reason) }) creds

/-- `Credential.updateOne({credentialId, issuerDid}, {$set: {revocationTxHash}})`. -/
def setCredentialRevocationTx (creds : List Credential) (credentialId issuerDid txHash : String) :
    List Credential :=
  updateFirst (fun c => c.credentialId == credentialId && c.issuerDid == issuerDid)
    (fun c => { c with revocationTxHash := some txHash }) creds

/-- `Recruiter.updateOne({_id}, {$set: badge revocation fields})` after the
on-chain badge revocation succeeded. -/
def setBadgeRevoked (recruiters : List Recruiter) (rid reason : String) (tx : TxResult) :
    List Recruiter :=
  updateFirst (fun r => r.rid == rid)
    (fun r => { r with badge := { r.badge with
        verified := false,
        status := some BadgeStatus.Revoked,
        revokedAt := true,
        revokeReason := some (reasonOrUnspecified reason),
        revocationTxHash := some tx.txHash,
        network := some tx.network } }) recruiters

/-- `Seeker.updateOne({did}, {$set vcs.$[v].status, $pull defaultSharedVcIds},
{arrayFilters: [{v.credentialId}]})` — repair of the holder's caches. -/
def revokeSeekerCaches (seekers : List Seeker) (subjectDid credentialId : String) :
    List Seeker :=
  updateFirst (fun s => s.did == some subjectDid)
    (fun s => { s with
        vcs := s.vcs.map (fun v =>
          if v.credentialId == credentialId then { v with status := revokedStr } else v),
        defaultSharedVcIds := s.defaultSharedVcIds.filter (fun i => i != credentialId) })
    seekers

/-- `Application.updateMany({sharedVcIds: credentialId}, {$pull ...})`. -/
def pullSharedVcIdFromApplications (apps : List Application) (credentialId : String) :
    List Application :=
  apps.map (fun a =>
    if a.sharedVcIds.contains credentialId
    then { a with sharedVcIds := a.sharedVcIds.filter (fun i => i != credentialId) }
    else a)

/-- HTTP-level result of POST /issuer/vc/revoke. `serverError` is the catch-all
500 the route returns after an awaited step throws. -/
inductive RevokeResult
  | badRequest
  | notFound
  | serverError
  | ok (badgeRevocation : Option TxResult)
deriving DecidableEq, Repr

/-- Failure injection for the non-transactional cascade: each awaited step
after the authoritative status write may throw, aborting the remaining steps
(the route catches and returns 500, already-performed writes persist). -/
structure RevokeEnv where
  ledger : LedgerOutcome
  failBadgeUpdate : Bool
  failCredTxUpdate : Bool
  failSeekerUpdate : Bool
  failAppUpdate : Bool
  failProofDelete : Bool
deriving DecidableEq, Repr

/-- POST /issuer/vc/revoke — the revocation cascade coordinator: mark the
credential revoked first, then branch on credential kind for downstream
repairs. -/
def revokeVc (st : Store) (credentialId issuerDid reason : String) (env : RevokeEnv) :
    RevokeResult × Store :=
  if credentialId == "" then (RevokeResult.badRequest, st)
  else
    match findCredentialOwned st.credentials credentialId issuerDid with
    | none => (RevokeResult.notFound, st)
    | some cred =>
      let st1 := { st with
        credentials := markCredentialRevoked st.credentials credentialId issuerDid reason }
      if cred.type.contains recruiterCredentialTag then
        match st1.recruiters.find? (fun r => r.did == cred.subjectDid) with
        | none => (RevokeResult.ok none, st1)
        | some recruiter =>
          match env.ledger with
          | LedgerOutcome.fail => (RevokeResult.serverError, st1)
          | LedgerOutcome.ok tx =>
            if env.failBadgeUpdate then (RevokeResult.serverError, st1)
            else
              let st2 := { st1 with
                recruiters := setBadgeRevoked st1.recruiters recruiter.rid reason tx }
              if env.failCredTxUpdate then (RevokeResult.serverError, st2)
              else
                let st3 := { st2 with
                  credentials := setCredentialRevocationTx st2.credentials credentialId issuerDid tx.txHash }
                (RevokeResult.ok (some tx), st3)
      else
        if env.failSeekerUpdate then (RevokeResult.serverError, st1)
        else
          let st2 := { st1 with
            seekers := revokeSeekerCaches st1.seekers cred.subjectDid credentialId }
          if env.failAppUpdate then (RevokeResult.serverError, st2)
          else
            let st3 := { st2 with
              applications := pullSharedVcIdFromApplications st2.applications credentialId }
            if env.failProofDelete then (RevokeResult.serverError, st3)
            else
              let st4 := { st3 with
                sharedProofs := st3.sharedProofs.filter (fun p => p.vcId != credentialId) }
              (RevokeResult.ok none, st4)

/-! ## Badge issuance (`routes/recruiters.ts`, POST /issuer/recruiters/:id/approve) -/

/-- HTTP-level result of the approval route. -/
inductive ApproveResult
  | issuerNotFound
  | recruiterNotFound
  | serverError
  | ok (credentialId : String) (txHash : String)
deriving DecidableEq, Repr

/-- POST /issuer/recruiters/:id/approve — two-phase badge issuance: ledger
call first, then VC signing, credential creation, and only then the local
badge projection update (`recruiter.badge = {...}; recruiter.save()`). -/
def approveRecruiter (st : Store) (issuerDid recruiterId : String)
    (ledger : LedgerOutcome) (signing : SignOutcome) : ApproveResult × Store :=
  if !(st.issuers.contains issuerDid) then (ApproveResult.issuerNotFound, st)
  else
    match st.recruiters.find? (fun r => r.rid == recruiterId) with
    | none => (ApproveResult.recruiterNotFound, st)
    | some recruiter =>
      match ledger with
      | LedgerOutcome.fail => (ApproveResult.serverError, st)
      | LedgerOutcome.ok tx =>
        match signing with
        | SignOutcome.fail => (ApproveResult.serverError, st)
        | SignOutcome.ok vcId vcRaw vctype =>
          if st.credentials.any (fun c => c.credentialId == vcId) then
            (ApproveResult.serverError, st)
          else
            let newCred : Credential := {
              credentialId := vcId, subjectDid := recruiter.did, issuerDid := issuerDid,
              type := vctype, status := CredStatus.active, revokedAt := false,
              revokeReason := none, onChainTxHash := some tx.txHash,
              revocationTxHash := none, network := some tx.network, vcRaw := some vcRaw }
            let newBadge : Badge := {
              verified := true, status := some BadgeStatus.Active,
              level := some 1, txHash := some tx.txHash, network := some tx.network,
              credentialId := some vcId, revokedAt := false, revokeReason := none,
              revocationTxHash := none }
            let recruiters1 := updateFirst (fun r => r.rid == recruiterId)
              (fun r => { r with
                kycStatus := KycStatus.approved,
                badge := newBadge }) st.recruiters
            (ApproveResult.ok vcId tx.txHash,
             { st with credentials := st.credentials ++ [newCred], recruiters := recruiters1 })

/-! ## Disclosure upserts and sharing (`routes/applications.ts`) -/

/-- `JSON.parse(JSON.stringify(vcRaw))` — the stored raw credential document is
copied unchanged into the disclosure record (documents are opaque here). -/
def deepCloneVcRawUntouched (vcRaw : Option String) : Option String := vcRaw

/-- The upsert key of the `bulkWrite` operations: `(applicationId, vcId)`. -/
def proofKeyMatches (applicationId vcId : String) (p : SharedProof) : Bool :=
  p.applicationId == applicationId && p.vcId == vcId

/-- The `$set` document of the disclosure upserts (both POST /applications and
PATCH /applications/:id/shared-vcs set exactly these fields). -/
def mkOrSetProof (applicationId : String) (jobId : Option String)
    (vcId seekerDid recruiterDid : String) (doc : Option String)
    (p : SharedProof) : SharedProof :=
  { p with applicationId := applicationId, jobId := jobId, vcId := vcId,
           seekerDid := seekerDid, recruiterDid := recruiterDid,
           derivedProof := none, nonce := none, revealedDocument := doc }

/-- The all-defaults record an upsert-insert starts from. -/
def emptyProof : SharedProof :=
  { applicationId := "", jobId := none, seekerDid := "", recruiterDid := "",
    vcId := "", derivedProof := none, nonce := none, revealedDocument := none }

/-- One `updateOne ... upsert: true` bulk operation: update the first record
matching the (applicationId, vcId) key, or insert a fresh one. -/
def upsertProof (ps : List SharedProof) (applicationId : String) (jobId : Option String)
    (vcId seekerDid recruiterDid : String) (doc : Option String) : List SharedProof :=
  if ps.any (proofKeyMatches applicationId vcId) then
    updateFirst (proofKeyMatches applicationId vcId)
      (mkOrSetProof applicationId jobId vcId seekerDid recruiterDid doc) ps
  else ps ++ [mkOrSetProof applicationId jobId vcId seekerDid recruiterDid doc emptyProof]

/-- The ownership filter both sharing routes apply to a requested id set:
`Credential.find({credentialId ∈ requested, subjectDid, status: "active"})`.
`credentialId` carries a unique index, so the by-id lookup into this list is
modelled as the first match. -/
def ownedActiveCreds (creds : List Credential) (requested : List String)
    (seekerDid : String) : List Credential :=
  creds.filter (fun c =>
    requested.contains c.credentialId && c.subjectDid == seekerDid
      && c.status == CredStatus.active)

/-- The `bulkWrite` of upsert operations: one upsert per selected id, in
order. `docFn` gives the `revealedDocument` stored for an id (the clone of the
matching credential's raw document). -/
def upsertFold (a : String) (j : Option String) (s r : String)
    (docFn : String → Option String) (ps : List SharedProof)
    (ids : List String) : List SharedProof :=
  ids.foldl (fun ps credId => upsertProof ps a j credId s r (docFn credId)) ps

/-- `validSelected` — the requested ids kept after the ownership filter
(`byId.has`). -/
def validSharedSelection (creds0 : List Credential) (requested : List String)
    (seekerDid : String) : List String :=
  let creds := ownedActiveCreds creds0 requested seekerDid
  requested.filter (fun vcId => (creds.find? (fun c => c.credentialId == vcId)).isSome)

/-- The document stored for a selected id:
`deepCloneVcRawUntouched(byId.get(credId)?.vcRaw)`. -/
def docForSelected (creds0 : List Credential) (requested : List String)
    (seekerDid : String) (credId : String) : Option String :=
  deepCloneVcRawUntouched
    (((ownedActiveCreds creds0 requested seekerDid).find?
        (fun c => c.credentialId == credId)).bind (fun c => c.vcRaw))

/-- HTTP-level result of PATCH /applications/:id/shared-vcs. -/
inductive PatchResult
  | notFound
  | forbidden
  | conflict
  | ok (sharedVcIds : List String)
deriving DecidableEq, Repr

/-- PATCH /applications/:id/shared-vcs — re-select the credentials shared into
an application: silently filter the request to owned active credentials,
delete the de-selected disclosures, upsert the selected ones, save the
canonical id list. -/
def sharedVcsPatch (st : Store) (sessionDid appId : String) (requested : List String) :
    PatchResult × Store :=
  match st.applications.find? (fun a => a.appId == appId) with
  | none => (PatchResult.notFound, st)
  | some app =>
    if app.seekerDid != sessionDid then (PatchResult.forbidden, st)
    else if app.status != AppStatus.submitted then (PatchResult.conflict, st)
    else
      let validSelected := validSharedSelection st.credentials requested app.seekerDid
      let proofs1 := st.sharedProofs.filter
        (fun p => !(p.applicationId == app.appId && !(validSelected.contains p.vcId)))
      let proofs2 := upsertFold app.appId (some app.jobId) app.seekerDid app.recruiterDid
        (docForSelected st.credentials requested app.seekerDid) proofs1 validSelected
      let apps1 := updateFirst (fun a => a.appId == appId)
        (fun a => { a with sharedVcIds := validSelected }) st.applications
      (PatchResult.ok validSelected, { st with sharedProofs := proofs2, applications := apps1 })

/-- HTTP-level result of POST /applications. -/
inductive CreateAppResult
  | badRequest
  | alreadyApplied (application : Application)
  | created (application : Application)
deriving DecidableEq, Repr

/-- POST /applications — create an application unless one already exists for
the (jobId, session seeker DID) pair, then attach the owned active selected
credentials as disclosures. -/
def createApplication (st : Store) (seekerDid jobId recruiterDid : String)
    (sharedVcIds : List String) (newAppId : String) : CreateAppResult × Store :=
  if jobId == "" || recruiterDid == "" then (CreateAppResult.badRequest, st)
  else
    match st.applications.find? (fun a => a.jobId == jobId && a.seekerDid == seekerDid) with
    | some existing => (CreateAppResult.alreadyApplied existing, st)
    | none =>
      let appDoc : Application := {
        appId := newAppId, jobId := jobId,
        seekerDid := seekerDid, recruiterDid := recruiterDid,
        sharedVcIds := sharedVcIds, status := AppStatus.submitted }
      let selectedIds := sharedVcIds
      if selectedIds.isEmpty then
        (CreateAppResult.created appDoc, { st with applications := st.applications ++ [appDoc] })
      else
        let validSelected := validSharedSelection st.credentials selectedIds seekerDid
        if validSelected.isEmpty then
          (CreateAppResult.created appDoc,
           { st with applications := st.applications ++ [appDoc] })
        else
          let proofs1 := upsertFold newAppId (some jobId) seekerDid recruiterDid
            (docForSelected st.credentials selectedIds seekerDid) st.sharedProofs
            validSelected
          let appDoc1 := { appDoc with sharedVcIds := validSelected }
          (CreateAppResult.created appDoc1,
           { st with applications := st.applications ++ [appDoc1], sharedProofs := proofs1 })

/-! ## Identity resolution and onboarding (`services/seekerIdentity.ts`,
`routes/recruiters.ts` POST /seekers/onboard) -/

/-- A verified session claim `{did?, email?, wallet_address?}`. -/
structure Session where
  did : Option String
  email : Option String
  wallet : Option String
deriving DecidableEq, Repr

/-- `s?.trim()` on an optional string. -/
def optTrim (s : Option String) : Option String := s.map String.trim

/-- `s?.toLowerCase()` on an optional string. -/
def optLower (s : Option String) : Option String := s.map (fun v => v.toLower)

/-- JavaScript truthiness of an optional string: present and nonempty. -/
def truthy (s : Option String) : Bool :=
  match s with
  | none => false
  | some v => v != ""

/-- The wallet-address pattern `/^0x[a-fA-F0-9]{40}$/`. -/
def isEthAddress (w : String) : Bool :=
  w.startsWith zeroX && w.length == 42
    && (w.drop 2).all (fun c => c.isDigit || (c ≥ 'a' && c ≤ 'f') || (c ≥ 'A' && c ≤ 'F'))

/-- The canonical wallet-derived DID `did:pkh:eip155:80002:<lowercased addr>`. -/
def derivePkhDid (w : String) : String := pkhChainBase ++ w.toLower

/-- `deriveDidFromSession` — prefer an already-`did:pkh` session DID, else
derive from the wallet address, else fall back to the session DID. -/
def deriveDidFromSession (session : Session) : Option String :=
  let sDid := optTrim session.did
  let w := optTrim session.wallet
  if truthy sDid && (sDid.getD emptyStr).startsWith didPkhScheme then sDid
  else if truthy w && isEthAddress (w.getD emptyStr) then
    some (derivePkhDid (w.getD emptyStr))
  else if truthy sDid then sDid
  else none

/-- The normalized identity claim `mustGetIdentity` returns. -/
structure Identity where
  did : Option String
  email : Option String
  wallet : Option String
deriving DecidableEq, Repr

/-- `mustGetIdentity` — trim/normalize the session claim; `none` models the
thrown `Missing session identity` error. -/
def mustGetIdentity (session : Session) : Option Identity :=
  let did := optTrim session.did
  let email := optLower (optTrim session.email)
  let wallet := optTrim session.wallet
  if !truthy did && !truthy email then none
  else some { did := did, email := email, wallet := wallet }

/-- The three-step holder lookup of `findSeekerBySession`: exact DID match,
then derived `did:pkh` from the wallet address, then email. -/
def resolveSeeker (seekers : List Seeker) (idy : Identity) : Option Seeker :=
  match (if truthy idy.did then seekers.find? (fun x => x.did == idy.did) else none) with
  | some d => some d
  | none =>
    match (if truthy idy.wallet && isEthAddress ((idy.wallet).getD emptyStr)
        then seekers.find? (fun x => x.did == some (derivePkhDid ((idy.wallet).getD emptyStr)))
        else none) with
    | some d => some d
    | none =>
      if truthy idy.email then seekers.find? (fun x => x.email == (idy.email).getD emptyStr)
      else none

/-- `findSeekerBySession` — resolve the holder from the session identity. The
outer `none` is the thrown identity-missing error; the inner option is the
lookup result. -/
def findSeekerBySession (seekers : List Seeker) (session : Session) :
    Option (Option Seeker) :=
  match mustGetIdentity session with
  | none => none
  | some idy => some (resolveSeeker seekers idy)

/-- The non-identity onboarding body fields both onboarding routes accept. -/
structure OnboardBody where
  name : String
  homeLocation : Option String
  classif : Option String
  onboarded : Option Bool
deriving DecidableEq, Repr

/-- HTTP-level result of the onboarding routes. -/
inductive OnboardResult
  | badRequest
  | unauthenticated
  | ok (seeker : Seeker)
deriving DecidableEq, Repr

/-- The shared non-identity field updates of the session onboarding route
(`doc.name = ...; doc.onboarded = doc.onboarded || onboarded; ...`). -/
def applyProfileFields (body : OnboardBody) (doc : Seeker) : Seeker :=
  let doc1 := { doc with name := body.name.trim }
  let doc2 := match body.onboarded with
    | some b => { doc1 with onboarded := doc1.onboarded || b }
    | none => doc1
  { doc2 with homeLocation := body.homeLocation, classif := body.classif }

/-- `if (session.email && !doc.email) doc.email = session.email`. -/
def setEmailFromSession (session : Session) (doc : Seeker) : Seeker :=
  if truthy session.email && doc.email == emptyStr
  then { doc with email := session.email.getD emptyStr } else doc

/-- `if (didToStore && !doc.did) doc.did = didToStore` — the only place either
onboarding route writes the DID field. -/
def assignDidIfEmpty (didToStore : Option String) (doc : Seeker) : Seeker :=
  if truthy didToStore && !truthy doc.did then { doc with did := didToStore } else doc

/-- `new Seeker({email: session.email, name, onboarded: !!onboarded})`. -/
def newSeekerFromSession (session : Session) (body : OnboardBody) (newSid : String) : Seeker :=
  { sid := newSid, did := none, email := session.email.getD emptyStr,
    name := body.name.trim, onboarded := body.onboarded.getD false,
    homeLocation := none, classif := none, vcs := [], defaultSharedVcIds := [] }

/-- POST /seekers/onboard (session-derived identity): resolve or create the
holder, set the email from the session if missing, assign the derived DID only
when the record has none, update profile fields, save. -/
def sessionOnboard (st : Store) (session : Session) (body : OnboardBody) (newSid : String) :
    OnboardResult × Store :=
  if body.name.trim == "" then (OnboardResult.badRequest, st)
  else
    match findSeekerBySession st.seekers session with
    | none => (OnboardResult.unauthenticated, st)
    | some found =>
      let isNew := found.isNone
      let doc0 : Seeker := match found with
        | some d => d
        | none => newSeekerFromSession session body newSid
      let doc1 := setEmailFromSession session doc0
      let doc2 := assignDidIfEmpty (deriveDidFromSession session) doc1
      let doc3 := applyProfileFields body doc2
      if isNew then
        (OnboardResult.ok doc3, { st with seekers := st.seekers ++ [doc3] })
      else
        (OnboardResult.ok doc3,
         { st with seekers := updateFirst (fun x => x.sid == doc3.sid) (fun _ => doc3) st.seekers })

/-- Body of the legacy onboarding route: the DID comes from the request. -/
structure LegacyOnboardBody where
  did : Option String
  email : String
  name : String
  homeLocation : Option String
  classif : Option String
  onboarded : Option Bool
deriving DecidableEq, Repr

/-- The non-identity field updates of the legacy onboarding route
(`doc.name = name` untrimmed; `doc.onboarded = doc.onboarded || onboarded`). -/
def applyLegacyFields (body : LegacyOnboardBody) (doc : Seeker) : Seeker :=
  let doc1 := { doc with name := body.name }
  let doc2 := match body.onboarded with
    | some b => { doc1 with onboarded := doc1.onboarded || b }
    | none => doc1
  { doc2 with homeLocation := body.homeLocation, classif := body.classif }

/-- `new Seeker({email, name, onboarded: !!onboarded})` in the legacy route. -/
def newSeekerLegacy (body : LegacyOnboardBody) (newSid : String) : Seeker :=
  { sid := newSid, did := none, email := body.email, name := body.name,
    onboarded := body.onboarded.getD false, homeLocation := none,
    classif := none, vcs := [], defaultSharedVcIds := [] }

/-- POST /seekers/onboard (legacy): find by DID or email (`$or`), create when
absent, assign the body DID only when the record has none, update the
remaining fields, save. -/
def legacyOnboard (st : Store) (body : LegacyOnboardBody) (newSid : String) :
    OnboardResult × Store :=
  if body.email == "" || body.name == "" then (OnboardResult.badRequest, st)
  else
    let found := st.seekers.find? (fun x =>
      (truthy body.did && x.did == body.did) || x.email == body.email)
    let isNew := found.isNone
    let doc0 : Seeker := match found with
      | some d => d
      | none => newSeekerLegacy body newSid
    let doc1 := assignDidIfEmpty body.did doc0
    let doc2 := applyLegacyFields body doc1
    if isNew then
      (OnboardResult.ok doc2, { st with seekers := st.seekers ++ [doc2] })
    else
      (OnboardResult.ok doc2,
       { st with seekers := updateFirst (fun x => x.sid == doc2.sid) (fun _ => doc2) st.seekers })

/-! ## Concrete test fixtures (used by witnesses and counterexamples) -/

def txTest : TxResult := { txHash := "0xtx", network := "polygon-amoy" }

def holderDid : String := "did:pkh:eip155:80002:0xholder"

def issuerTestDid : String := "did:ethr:0xissuer"

def credCareer : Credential := {
  credentialId := "urn:securehire:vc:aaa", subjectDid := holderDid,
  issuerDid := issuerTestDid, type := ["VerifiableCredential", "EmploymentCredential"],
  status := CredStatus.active, revokedAt := false, revokeReason := none,
  onChainTxHash := none, revocationTxHash := none, network := none,
  vcRaw := some ("doc-career") }

def seekerHolder : Seeker := {
  sid := "s1", did := some holderDid, email := "holder@example.com",
  name := "Holder", onboarded := true, homeLocation := none, classif := none,
  vcs := [{ credentialId := "urn:securehire:vc:aaa", status := "active" }],
  defaultSharedVcIds := ["urn:securehire:vc:aaa"] }

def appX : Application := {
  appId := "app1", jobId := "job1", seekerDid := holderDid,
  recruiterDid := "did:ethr:0xrec", sharedVcIds := ["urn:securehire:vc:aaa"],
  status := AppStatus.submitted }

def proofX : SharedProof := {
  applicationId := "app1", jobId := some ("job1"), seekerDid := holderDid,
  recruiterDid := "did:ethr:0xrec", vcId := "urn:securehire:vc:aaa",
  derivedProof := none, nonce := none, revealedDocument := some ("doc-career") }

def storePersonal : Store := {
  credentials := [credCareer], seekers := [seekerHolder], recruiters := [],
  applications := [appX], sharedProofs := [proofX], issuers := [issuerTestDid] }

def envAllOk : RevokeEnv := {
  ledger := LedgerOutcome.ok txTest, failBadgeUpdate := false, failCredTxUpdate := false,
  failSeekerUpdate := false, failAppUpdate := false, failProofDelete := false }

def envSeekerUpdateThrows : RevokeEnv := {
  ledger := LedgerOutcome.fail, failBadgeUpdate := false, failCredTxUpdate := false,
  failSeekerUpdate := true, failAppUpdate := false, failProofDelete := false }

def badgeActiveTest : Badge := {
  verified := true, status := some BadgeStatus.Active, level := some 1,
  txHash := some ("0xabc"), network := some ("polygon-amoy"),
  credentialId := some ("urn:securehire:vc:rc"), revokedAt := false,
  revokeReason := none, revocationTxHash := none }

def recruiterApprovedActive : Recruiter := {
  rid := "r1", did := "did:ethr:0xorg", onboarded := true,
  kycStatus := KycStatus.approved, badge := badgeActiveTest }

def credTrust : Credential := {
  credentialId := "urn:securehire:vc:rc", subjectDid := "did:ethr:0xorg",
  issuerDid := issuerTestDid, type := ["VerifiableCredential", "RecruiterCredential"],
  status := CredStatus.active, revokedAt := false, revokeReason := none,
  onChainTxHash := some ("0xissue"), revocationTxHash := none,
  network := some ("polygon-amoy"), vcRaw := some ("doc-trust") }

def storeTrust : Store := {
  credentials := [credTrust], seekers := [], recruiters := [recruiterApprovedActive],
  applications := [], sharedProofs := [], issuers := [issuerTestDid] }

def badgeNoneTest : Badge := {
  verified := false, status := some BadgeStatus.None, level := none, txHash := none,
  network := none, credentialId := none, revokedAt := false, revokeReason := none,
  revocationTxHash := none }

def recruiterPendingKyc : Recruiter := {
  rid := "r2", did := "did:ethr:0xorg2", onboarded := true,
  kycStatus := KycStatus.pending, badge := badgeNoneTest }

def storeApprove : Store := {
  credentials := [], seekers := [], recruiters := [recruiterPendingKyc],
  applications := [], sharedProofs := [], issuers := [issuerTestDid] }

def sessionConflicting : Session := {
  did := some ("did:privy:other"), email := some ("holder@example.com"),
  wallet := some ("0x1234567890123456789012345678901234567890") }

def bodyTest : OnboardBody := {
  name := "New Name", homeLocation := some ("KL"), classif := none,
  onboarded := some true }

def lbodyTest : LegacyOnboardBody := {
  did := some ("did:ethr:0xother"), email := "holder@example.com", name := "New Name",
  homeLocation := none, classif := none, onboarded := some true }

def credRevoked : Credential := { credCareer with
  credentialId := "urn:securehire:vc:bbb", status := CredStatus.revoked,
  vcRaw := some ("doc-revoked") }

def appY : Application := {
  appId := "app9", jobId := "job9", seekerDid := holderDid,
  recruiterDid := "did:ethr:0xrec", sharedVcIds := ["urn:securehire:vc:bbb"],
  status := AppStatus.submitted }

def proofY : SharedProof := {
  applicationId := "app9", jobId := some ("job9"), seekerDid := holderDid,
  recruiterDid := "did:ethr:0xrec", vcId := "urn:securehire:vc:bbb",
  derivedProof := none, nonce := none, revealedDocument := some ("doc-revoked") }

def storeRevokedShare : Store := {
  credentials := [credRevoked], seekers := [seekerHolder], recruiters := [],
  applications := [appY], sharedProofs := [proofY], issuers := [issuerTestDid] }

/-! ## Generic lemmas about the store primitives -/

theorem contains_iff_mem [BEq α] [LawfulBEq α] {l : List α} {a : α} :
    l.contains a = true ↔ a ∈ l := List.elem_iff

theorem mem_updateFirst {p : α → Bool} {f : α → α} :
    ∀ {l : List α} {y : α}, y ∈ updateFirst p f l →
      y ∈ l ∨ ∃ x, x ∈ l ∧ p x = true ∧ y = f x := by
  intro l
  induction l with
  | nil => intro y hy; simp [updateFirst] at hy
  | cons a as ih =>
    intro y hy
    by_cases hpa : p a = true
    · simp only [updateFirst, if_pos hpa] at hy
      rcases List.mem_cons.mp hy with h | h
      · exact Or.inr ⟨a, List.mem_cons_self a as, hpa, h⟩
      · exact Or.inl (List.mem_cons_of_mem a h)
    · simp only [updateFirst, if_neg hpa] at hy
      rcases List.mem_cons.mp hy with h | h
      · exact Or.inl (h ▸ List.mem_cons_self a as)
      · rcases ih h with h' | ⟨x, hx, hpx, hyx⟩
        · exact Or.inl (List.mem_cons_of_mem a h')
        · exact Or.inr ⟨x, List.mem_cons_of_mem a hx, hpx, hyx⟩

theorem mem_updateFirst_of_not_pred {p : α → Bool} {f : α → α} :
    ∀ {l : List α} {x : α}, x ∈ l → p x = false → x ∈ updateFirst p f l := by
  intro l
  induction l with
  | nil => intro x hx _; simp at hx
  | cons a as ih =>
    intro x hx hpx
    rcases List.mem_cons.mp hx with h | h
    · subst h
      have hx' : ¬ (p x = true) := by simp [hpx]
      simp only [updateFirst, if_neg hx']
      exact List.mem_cons_self x _
    · by_cases hpa : p a = true
      · simp only [updateFirst, if_pos hpa]
        exact List.mem_cons_of_mem _ h
      · simp only [updateFirst, if_neg hpa]
        exact List.mem_cons_of_mem a (ih h hpx)

theorem find?_updateFirst {p : α → Bool} {f : α → α}
    (hpf : ∀ x, p x = true → p (f x) = true) :
    ∀ l : List α, (updateFirst p f l).find? p = (l.find? p).map f := by
  intro l
  induction l with
  | nil => simp [updateFirst]
  | cons a as ih =>
    by_cases hpa : p a = true
    · simp only [updateFirst, if_pos hpa]
      rw [List.find?_cons_of_pos _ (hpf a hpa), List.find?_cons_of_pos _ hpa]
      simp
    · simp only [updateFirst, if_neg hpa]
      rw [List.find?_cons_of_neg _ hpa, List.find?_cons_of_neg _ hpa]
      exact ih

theorem filter_le_one_unique {p : α → Bool} {l : List α}
    (hone : (l.filter p).length ≤ 1) {x y : α}
    (hx : x ∈ l) (hpx : p x = true) (hy : y ∈ l) (hpy : p y = true) : x = y := by
  have hxf : x ∈ l.filter p := List.mem_filter.mpr ⟨hx, hpx⟩
  have hyf : y ∈ l.filter p := List.mem_filter.mpr ⟨hy, hpy⟩
  cases hfp : l.filter p with
  | nil => rw [hfp] at hxf; simp at hxf
  | cons a as =>
    rw [hfp] at hone hxf hyf
    have has : as = [] := by
      cases as with
      | nil => rfl
      | cons b bs => simp at hone
    subst has
    simp at hxf hyf
    rw [hxf, hyf]

theorem updateFirst_forall_mem {p : α → Bool} {f : α → α} {Q : α → Prop} :
    ∀ l : List α, (l.filter p).length ≤ 1 →
      (∀ x, x ∈ l → p x = true → Q (f x)) →
      ∀ y ∈ updateFirst p f l, p y = true → Q y := by
  intro l
  induction l with
  | nil => intro _ _ y hy; simp [updateFirst] at hy
  | cons a as ih =>
    intro hone hQ y hy hpy
    by_cases hpa : p a = true
    · simp only [updateFirst, if_pos hpa] at hy
      rcases List.mem_cons.mp hy with h | h
      · exact h ▸ hQ a (List.mem_cons_self a as) hpa
      · exfalso
        rw [List.filter_cons_of_pos hpa] at hone
        have hmem : y ∈ as.filter p := List.mem_filter.mpr ⟨h, hpy⟩
        have hne : as.filter p ≠ [] := List.ne_nil_of_mem hmem
        have hpos : 0 < (as.filter p).length := List.length_pos.mpr hne
        simp only [List.length_cons] at hone
        omega
    · simp only [updateFirst, if_neg hpa] at hy
      rcases List.mem_cons.mp hy with h | h
      · exact absurd (h ▸ hpy) (by simp [hpa])
      · rw [List.filter_cons_of_neg hpa] at hone
        exact ih hone (fun x hx hpx => hQ x (List.mem_cons_of_mem a hx) hpx) y h hpy

theorem updateFirst_exists_of_mem {p : α → Bool} {f : α → α} :
    ∀ {l : List α} {x : α}, x ∈ l → p x = true →
      ∃ z, z ∈ l ∧ p z = true ∧ f z ∈ updateFirst p f l := by
  intro l
  induction l with
  | nil => intro x hx _; simp at hx
  | cons a as ih =>
    intro x hx hpx
    by_cases hpa : p a = true
    · refine ⟨a, List.mem_cons_self a as, hpa, ?_⟩
      simp only [updateFirst, if_pos hpa]
      exact List.mem_cons_self _ as
    · rcases List.mem_cons.mp hx with h | h
      · exact absurd (h ▸ hpx) (by simp_all)
      · rcases ih h hpx with ⟨z, hz, hpz, hfz⟩
        refine ⟨z, List.mem_cons_of_mem a hz, hpz, ?_⟩
        simp only [updateFirst, if_neg hpa]
        exact List.mem_cons_of_mem a hfz

/-! ## Domain lemmas about the revocation cascade -/

theorem findCredentialOwned_mark (creds : List Credential)
    (credentialId issuerDid reason : String) :
    findCredentialOwned (markCredentialRevoked creds credentialId issuerDid reason)
        credentialId issuerDid
      = (findCredentialOwned creds credentialId issuerDid).map
          (fun c => { c with status := CredStatus.revoked, revokedAt := true,
                             revokeReason := some (reasonOrUnspecified reason) }) :=
  @find?_updateFirst Credential
    (fun c => c.credentialId == credentialId && c.issuerDid == issuerDid)
    (fun c => { c with status := CredStatus.revoked, revokedAt := true,
                       revokeReason := some (reasonOrUnspecified reason) })
    (fun _ hx => hx) creds

theorem findCredentialOwned_setTx (creds : List Credential)
    (credentialId issuerDid txHash : String) :
    findCredentialOwned (setCredentialRevocationTx creds credentialId issuerDid txHash)
        credentialId issuerDid
      = (findCredentialOwned creds credentialId issuerDid).map
          (fun c => { c with revocationTxHash := some txHash }) :=
  @find?_updateFirst Credential
    (fun c => c.credentialId == credentialId && c.issuerDid == issuerDid)
    (fun c => { c with revocationTxHash := some txHash })
    (fun _ hx => hx) creds

theorem revokeVc_credentials_cases (st : Store) (credentialId issuerDid reason : String)
    (env : RevokeEnv) (cred : Credential)
    (hid' : (credentialId == "") = false)
    (hfound : findCredentialOwned st.credentials credentialId issuerDid = some cred) :
    (revokeVc st credentialId issuerDid reason env).2.credentials
        = markCredentialRevoked st.credentials credentialId issuerDid reason
    ∨ ∃ txHash,
        (revokeVc st credentialId issuerDid reason env).2.credentials
          = setCredentialRevocationTx
              (markCredentialRevoked st.credentials credentialId issuerDid reason)
              credentialId issuerDid txHash := by
  unfold revokeVc
  simp only [hid', Bool.false_eq_true, if_false, hfound]
  split
  · split
    · exact Or.inl rfl
    · split
      · exact Or.inl rfl
      · split
        · exact Or.inl rfl
        · split
          · exact Or.inl rfl
          · exact Or.inr ⟨_, rfl⟩
  · split
    · exact Or.inl rfl
    · split
      · exact Or.inl rfl
      · split
        · exact Or.inl rfl
        · exact Or.inl rfl

/-- C1: on POST /issuer/vc/revoke for an existing credential owned by the
calling issuer, the credential's status is set to `revoked` in the credential
store before any downstream effect (badge revocation, holder-cache repair,
disclosure cleanup) is attempted, and no failure of any later step undoes it:
under every combination of downstream outcomes, a re-read of the credential
after the call shows status `revoked`. -/
theorem claim_C1_revoked_before_downstream (st : Store)
    (credentialId issuerDid reason : String) (env : RevokeEnv) (cred : Credential)
    (hid : credentialId ≠ "")
    (hfound : findCredentialOwned st.credentials credentialId issuerDid = some cred) :
    (findCredentialOwned
        (revokeVc st credentialId issuerDid reason env).2.credentials
        credentialId issuerDid).map Credential.status = some CredStatus.revoked := by
  have hid' : (credentialId == "") = false := by simpa using hid
  rcases revokeVc_credentials_cases st credentialId issuerDid reason env cred hid' hfound
    with h | ⟨txHash, h⟩
  · rw [h, findCredentialOwned_mark, hfound]
    rfl
  · rw [h, findCredentialOwned_setTx, findCredentialOwned_mark, hfound]
    rfl

/-- C1 witness: the theorem applied to a concrete one-credential store with a
downstream step set to fail. -/
theorem claim_C1_witness :
    (findCredentialOwned
        (revokeVc storePersonal ("urn:securehire:vc:aaa") issuerTestDid ("fraud")
          envSeekerUpdateThrows).2.credentials
        ("urn:securehire:vc:aaa") issuerTestDid).map Credential.status
      = some CredStatus.revoked :=
  claim_C1_revoked_before_downstream storePersonal _ _ _ envSeekerUpdateThrows credCareer
    (by decide) (by decide)

/-- C3: listing a context's active disclosures returns exactly the stored
disclosure records whose credential's current status in the credential store
is `active`; a disclosure whose credential is not currently active is dropped
even when its record still exists. -/
theorem claim_C3_listActive_exact (creds : List Credential)
    (sharedProofs : List SharedProof)
    (hnz : ∀ p ∈ sharedProofs, p.vcId ≠ "") (p : SharedProof) :
    p ∈ filterActiveSharedProofs creds sharedProofs ↔
      p ∈ sharedProofs
        ∧ ∃ c, c ∈ creds ∧ c.credentialId = p.vcId ∧ c.status = CredStatus.active := by
  unfold filterActiveSharedProofs
  by_cases hemp : sharedProofs.isEmpty
  · rw [if_pos hemp]
    rw [List.isEmpty_iff] at hemp
    subst hemp
    simp
  · rw [if_neg hemp]
    by_cases hv : (((sharedProofs.map (fun p => p.vcId)).filter (fun s => s != "")).dedup).isEmpty
    · exfalso
      rw [List.isEmpty_iff] at hemp hv
      rcases List.exists_mem_of_ne_nil sharedProofs hemp with ⟨q, hq⟩
      have : q.vcId ∈ ((sharedProofs.map (fun p => p.vcId)).filter (fun s => s != "")).dedup := by
        rw [List.mem_dedup, List.mem_filter]
        exact ⟨List.mem_map_of_mem _ hq, by simpa using hnz q hq⟩
      rw [hv] at this
      simp at this
    · rw [if_neg hv]
      rw [List.mem_filter]
      constructor
      · rintro ⟨hp, hact⟩
        refine ⟨hp, ?_⟩
        rw [contains_iff_mem, List.mem_map] at hact
        rcases hact with ⟨c, hc, hcid⟩
        rw [List.mem_filter] at hc
        rcases hc with ⟨hcc, hcond⟩
        rw [Bool.and_eq_true, beq_iff_eq] at hcond
        exact ⟨c, hcc, hcid, hcond.2⟩
      · rintro ⟨hp, c, hc, hcid, hst⟩
        refine ⟨hp, ?_⟩
        rw [contains_iff_mem, List.mem_map]
        refine ⟨c, ?_, hcid⟩
        rw [List.mem_filter]
        refine ⟨hc, ?_⟩
        rw [Bool.and_eq_true, beq_iff_eq]
        refine ⟨?_, hst⟩
        rw [contains_iff_mem, List.mem_dedup, List.mem_filter]
        refine ⟨?_, by simpa [hcid] using hnz p hp⟩
        rw [hcid]
        exact List.mem_map_of_mem _ hp

/-- C3 witness: on the concrete personal store the stored disclosure for the
active credential is returned. -/
theorem claim_C3_witness :
    proofX ∈ filterActiveSharedProofs storePersonal.credentials storePersonal.sharedProofs
      ∧ proofX ∈ storePersonal.sharedProofs
      ∧ ∃ c, c ∈ storePersonal.credentials
          ∧ c.credentialId = proofX.vcId ∧ c.status = CredStatus.active := by
  have h := claim_C3_listActive_exact storePersonal.credentials storePersonal.sharedProofs
    (by decide) proofX
  have hr : proofX ∈ storePersonal.sharedProofs
      ∧ ∃ c, c ∈ storePersonal.credentials
          ∧ c.credentialId = proofX.vcId ∧ c.status = CredStatus.active := by
    refine ⟨by decide, credCareer, by decide, by decide, by decide⟩
  exact ⟨h.mpr hr, hr⟩

/-- C6: the recruiter role-state derivation is a pure function of the
recruiter record: `none` when there is no record or it is not onboarded
(whatever the stored badge status); otherwise Active maps to `active`,
Pending to `pending`, Revoked and Rejected to `rejected`, and a missing or
`None` badge status to `pending`; it never returns `active` for an onboarded
recruiter whose badge status is not Active. -/
theorem claim_C6_role_state_mapping :
    computeRecruiterRoleState none = RoleState.none
    ∧ (∀ r : Recruiter, r.onboarded = false →
        computeRecruiterRoleState (some r) = RoleState.none)
    ∧ (∀ r : Recruiter, r.onboarded = true →
        (r.badge.status = some BadgeStatus.Active →
            computeRecruiterRoleState (some r) = RoleState.active)
        ∧ (r.badge.status = some BadgeStatus.Pending →
            computeRecruiterRoleState (some r) = RoleState.pending)
        ∧ (r.badge.status = some BadgeStatus.Revoked
              ∨ r.badge.status = some BadgeStatus.Rejected →
            computeRecruiterRoleState (some r) = RoleState.rejected)
        ∧ (r.badge.status = none ∨ r.badge.status = some BadgeStatus.None →
            computeRecruiterRoleState (some r) = RoleState.pending))
    ∧ (∀ r : Recruiter, computeRecruiterRoleState (some r) = RoleState.active →
        r.onboarded = true ∧ r.badge.status = some BadgeStatus.Active) := by
  refine ⟨rfl, ?_, ?_, ?_⟩
  · intro r h
    simp [computeRecruiterRoleState, h]
  · intro r h
    refine ⟨?_, ?_, ?_, ?_⟩
    · intro hb; simp [computeRecruiterRoleState, h, hb]
    · intro hb; simp [computeRecruiterRoleState, h, hb]
    · rintro (hb | hb) <;> simp [computeRecruiterRoleState, h, hb]
    · rintro (hb | hb) <;> simp [computeRecruiterRoleState, h, hb]
  · intro r h
    cases ho : r.onboarded
    · exact absurd h (by simp [computeRecruiterRoleState, ho])
    · refine ⟨rfl, ?_⟩
      rcases hb : r.badge.status with _ | b
      · exact absurd h (by simp [computeRecruiterRoleState, ho, hb])
      · cases b
        case Active => exact rfl
        all_goals exact absurd h (by simp [computeRecruiterRoleState, ho, hb])

/-- C6 witness: the mapping evaluated on a concrete onboarded recruiter with
an Active badge, and the never-active direction at the same input. -/
theorem claim_C6_witness :
    computeRecruiterRoleState (some recruiterApprovedActive) = RoleState.active
      ∧ recruiterApprovedActive.onboarded = true
      ∧ recruiterApprovedActive.badge.status = some BadgeStatus.Active :=
  ⟨(claim_C6_role_state_mapping.2.2.1 recruiterApprovedActive (by decide)).1 (by decide),
    (claim_C6_role_state_mapping.2.2.2 recruiterApprovedActive
      ((claim_C6_role_state_mapping.2.2.1 recruiterApprovedActive (by decide)).1
        (by decide))).1,
    (claim_C6_role_state_mapping.2.2.2 recruiterApprovedActive
      ((claim_C6_role_state_mapping.2.2.1 recruiterApprovedActive (by decide)).1
        (by decide))).2⟩

/-- C8 counterexample: with the registry configured, a failing ledger read for
a KYC-approved organisation whose local badge verified flag is set yields
`None`, not the claimed KYC-and-verified local fallback `Active`. -/
theorem claim_C8_counterexample :
    recruiterApprovedActive.kycStatus = KycStatus.approved
    ∧ recruiterApprovedActive.badge.verified = true
    ∧ computeTrustStatusForJob true LedgerRead.err (some recruiterApprovedActive)
        = TrustStatus.None
    ∧ computeTrustStatusForJob true LedgerRead.err (some recruiterApprovedActive)
        ≠ TrustStatus.Active := by
  refine ⟨rfl, rfl, rfl, by decide⟩

/-- C8 (amended): trust-status reads never fail the caller, but the fallback
differs from the claim: a failing ledger read degrades to `None` regardless of
local state, and only when the registry is not configured does the read fall
back to local data, reporting `Active` exactly when the local badge verified
flag is set (KYC status is not consulted) and `None` otherwise. -/
theorem claim_C8_amended_fallback (read : LedgerRead) (r : Recruiter) :
    getRecruiterTrustStatusFromChain LedgerRead.err = TrustStatus.None
    ∧ computeTrustStatusForJob false read (some r)
        = (if r.badge.verified then TrustStatus.Active else TrustStatus.None)
    ∧ computeTrustStatusForJob false read none = TrustStatus.None := by
  refine ⟨rfl, ?_, rfl⟩
  simp [computeTrustStatusForJob]

/-- C10: application creation is idempotent per (jobId, seeker DID): when an
application for the pair already exists, the create call returns it marked
already-applied and leaves the store entirely unchanged (no new application,
no new disclosure records). -/
theorem claim_C10_create_idempotent (st : Store)
    (seekerDid jobId recruiterDid : String) (sharedVcIds : List String)
    (newAppId : String) (existing : Application)
    (hjob : jobId ≠ "") (hrec : recruiterDid ≠ "")
    (hdup : st.applications.find?
        (fun a => a.jobId == jobId && a.seekerDid == seekerDid) = some existing) :
    createApplication st seekerDid jobId recruiterDid sharedVcIds newAppId
      = (CreateAppResult.alreadyApplied existing, st) := by
  have hjob' : (jobId == "") = false := by simpa using hjob
  have hrec' : (recruiterDid == "") = false := by simpa using hrec
  unfold createApplication
  simp [hjob', hrec', hdup]

/-- C10 witness: re-applying to the same job with the same seeker returns the
stored application and the unchanged store. -/
theorem claim_C10_witness :
    createApplication storePersonal holderDid ("job1") ("did:ethr:0xrec")
        ["urn:securehire:vc:aaa"] ("app2")
      = (CreateAppResult.alreadyApplied appX, storePersonal) :=
  claim_C10_create_idempotent storePersonal holderDid ("job1") ("did:ethr:0xrec")
    ["urn:securehire:vc:aaa"] ("app2") appX (by decide) (by decide) (by decide)

/-! ## The personal-credential cascade (C2) -/

theorem revokeVc_personal_success (st : Store) (credentialId issuerDid reason : String)
    (cred : Credential) (env : RevokeEnv)
    (hid' : (credentialId == "") = false)
    (hfound : findCredentialOwned st.credentials credentialId issuerDid = some cred)
    (hper : cred.type.contains recruiterCredentialTag = false)
    (h1 : env.failSeekerUpdate = false) (h2 : env.failAppUpdate = false)
    (h3 : env.failProofDelete = false) :
    (revokeVc st credentialId issuerDid reason env).2 =
      { st with
        credentials := markCredentialRevoked st.credentials credentialId issuerDid reason,
        seekers := revokeSeekerCaches st.seekers cred.subjectDid credentialId,
        applications := pullSharedVcIdFromApplications st.applications credentialId,
        sharedProofs := st.sharedProofs.filter (fun p => p.vcId != credentialId) } := by
  have hper' : recruiterCredentialTag ∉ cred.type := by simpa using hper
  unfold revokeVc
  simp [hid', hfound, hper', h1, h2, h3]

theorem pull_not_mem (apps : List Application) (credentialId : String) :
    ∀ a ∈ pullSharedVcIdFromApplications apps credentialId,
      credentialId ∉ a.sharedVcIds := by
  intro a ha
  unfold pullSharedVcIdFromApplications at ha
  rcases List.mem_map.mp ha with ⟨a0, _, rfl⟩
  by_cases hc : a0.sharedVcIds.contains credentialId = true
  · simp only [if_pos hc]
    intro hmem
    have := (List.mem_filter.mp hmem).2
    simp at this
  · simp only [if_neg hc]
    intro hmem
    exact hc (contains_iff_mem.mpr hmem)

theorem revokeSeekerCaches_complete (seekers : List Seeker)
    (subjectDid credentialId : String)
    (hone : (seekers.filter (fun s => s.did == some subjectDid)).length ≤ 1) :
    ∀ s ∈ revokeSeekerCaches seekers subjectDid credentialId,
      s.did = some subjectDid →
        (∀ v ∈ s.vcs, v.credentialId = credentialId → v.status = revokedStr)
        ∧ credentialId ∉ s.defaultSharedVcIds := by
  have hmain := updateFirst_forall_mem (p := fun s => s.did == some subjectDid)
    (f := fun s => { s with
        vcs := s.vcs.map (fun v =>
          if v.credentialId == credentialId then { v with status := revokedStr } else v),
        defaultSharedVcIds := s.defaultSharedVcIds.filter (fun i => i != credentialId) })
    (Q := fun s =>
      (∀ v ∈ s.vcs, v.credentialId = credentialId → v.status = revokedStr)
        ∧ credentialId ∉ s.defaultSharedVcIds)
    seekers hone ?_
  · intro s hs hdid
    exact hmain s hs (by simpa using hdid)
  · intro x _ _
    constructor
    · intro v hv hvid
      rcases List.mem_map.mp hv with ⟨v0, _, rfl⟩
      by_cases hvc : (v0.credentialId == credentialId) = true
      · simp only [if_pos hvc]
      · exfalso
        rw [if_neg hvc] at hvid
        exact hvc (by simpa using hvid)
    · intro hmem
      have := (List.mem_filter.mp hmem).2
      simp at this

/-- C2: for every personal (non-organisation-trust) credential the revocation
operation revokes (all cascade steps completing), afterwards the holder's
denormalized issued-credential entries for that id are `revoked`, the id is
absent from the holder's defaultSharedVcIds, absent from every application's
sharedVcIds, and no stored disclosure for the id remains in any context. -/
theorem claim_C2_personal_cascade_complete (st : Store)
    (credentialId issuerDid reason : String) (cred : Credential) (env : RevokeEnv)
    (hid : credentialId ≠ "")
    (hfound : findCredentialOwned st.credentials credentialId issuerDid = some cred)
    (hper : cred.type.contains recruiterCredentialTag = false)
    (hone : (st.seekers.filter (fun s => s.did == some cred.subjectDid)).length ≤ 1)
    (h1 : env.failSeekerUpdate = false) (h2 : env.failAppUpdate = false)
    (h3 : env.failProofDelete = false) :
    (∀ s ∈ (revokeVc st credentialId issuerDid reason env).2.seekers,
        s.did = some cred.subjectDid →
          (∀ v ∈ s.vcs, v.credentialId = credentialId → v.status = revokedStr)
          ∧ credentialId ∉ s.defaultSharedVcIds)
    ∧ (∀ a ∈ (revokeVc st credentialId issuerDid reason env).2.applications,
        credentialId ∉ a.sharedVcIds)
    ∧ (∀ q ∈ (revokeVc st credentialId issuerDid reason env).2.sharedProofs,
        q.vcId ≠ credentialId) := by
  have hid' : (credentialId == "") = false := by simpa using hid
  have hst := revokeVc_personal_success st credentialId issuerDid reason cred env
    hid' hfound hper h1 h2 h3
  rw [hst]
  refine ⟨?_, ?_, ?_⟩
  · exact revokeSeekerCaches_complete st.seekers cred.subjectDid credentialId hone
  · exact pull_not_mem st.applications credentialId
  · intro q hq
    have := (List.mem_filter.mp hq).2
    simpa using this

/-- C2 witness: the cascade applied to the concrete personal store: the
holder's cache entry, default share set, application share set and disclosure
record are all cleaned. -/
theorem claim_C2_witness :
    (∀ s ∈ (revokeVc storePersonal ("urn:securehire:vc:aaa") issuerTestDid ("fraud")
          envAllOk).2.seekers,
        s.did = some credCareer.subjectDid →
          (∀ v ∈ s.vcs, v.credentialId = ("urn:securehire:vc:aaa") → v.status = revokedStr)
          ∧ ("urn:securehire:vc:aaa") ∉ s.defaultSharedVcIds)
    ∧ (∀ a ∈ (revokeVc storePersonal ("urn:securehire:vc:aaa") issuerTestDid ("fraud")
          envAllOk).2.applications,
        ("urn:securehire:vc:aaa") ∉ a.sharedVcIds)
    ∧ (∀ q ∈ (revokeVc storePersonal ("urn:securehire:vc:aaa") issuerTestDid ("fraud")
          envAllOk).2.sharedProofs,
        q.vcId ≠ ("urn:securehire:vc:aaa")) :=
  claim_C2_personal_cascade_complete storePersonal ("urn:securehire:vc:aaa")
    issuerTestDid ("fraud") credCareer envAllOk (by decide) (by decide) (by decide)
    (by decide) (by decide) (by decide) (by decide)

/-! ## The organisation-trust cascade (C7) -/

theorem revokeVc_recruiter_success (st : Store) (credentialId issuerDid reason : String)
    (cred : Credential) (recruiter : Recruiter) (tx : TxResult) (env : RevokeEnv)
    (hid' : (credentialId == "") = false)
    (hfound : findCredentialOwned st.credentials credentialId issuerDid = some cred)
    (hrc : cred.type.contains recruiterCredentialTag = true)
    (hrec : st.recruiters.find? (fun r => r.did == cred.subjectDid) = some recruiter)
    (hledger : env.ledger = LedgerOutcome.ok tx)
    (hb1 : env.failBadgeUpdate = false) (hb2 : env.failCredTxUpdate = false) :
    (revokeVc st credentialId issuerDid reason env).2.recruiters
      = setBadgeRevoked st.recruiters recruiter.rid reason tx := by
  have hrc' : recruiterCredentialTag ∈ cred.type := by simpa using hrc
  unfold revokeVc
  simp [hid', hfound, hrc', hrec, hledger, hb1, hb2]

/-- C7: for an organisation with KYC approved, badge Active and derived role
state `active`, revoking its trust credential (ledger call succeeding) leaves
the persisted recruiter record with badge status `Revoked`, and the role-state
recomputation on the next request then yields `rejected` and updates the
cached role state to `rejected`. -/
theorem claim_C7_trust_revocation_rejects_role (st : Store)
    (credentialId issuerDid reason : String) (cred : Credential)
    (recruiter : Recruiter) (tx : TxResult) (env : RevokeEnv)
    (hid : credentialId ≠ "")
    (hfound : findCredentialOwned st.credentials credentialId issuerDid = some cred)
    (hrc : cred.type.contains recruiterCredentialTag = true)
    (hrec : st.recruiters.find? (fun r => r.did == cred.subjectDid) = some recruiter)
    (honb : recruiter.onboarded = true)
    (hkyc : recruiter.kycStatus = KycStatus.approved)
    (hact : recruiter.badge.status = some BadgeStatus.Active)
    (hrole : computeRecruiterRoleState (some recruiter) = RoleState.active)
    (hone : (st.recruiters.filter (fun r => r.rid == recruiter.rid)).length ≤ 1)
    (hledger : env.ledger = LedgerOutcome.ok tx)
    (hb1 : env.failBadgeUpdate = false) (hb2 : env.failCredTxUpdate = false) :
    (∃ r', r' ∈ (revokeVc st credentialId issuerDid reason env).2.recruiters
        ∧ r'.rid = recruiter.rid
        ∧ r'.badge.status = some BadgeStatus.Revoked
        ∧ r'.kycStatus = KycStatus.approved
        ∧ computeRecruiterRoleState (some r') = RoleState.rejected
        ∧ syncRecruiterRole RoleState.active (some r') = RoleState.rejected)
    ∧ (∀ r' ∈ (revokeVc st credentialId issuerDid reason env).2.recruiters,
        r'.rid = recruiter.rid →
          r'.badge.status = some BadgeStatus.Revoked
          ∧ computeRecruiterRoleState (some r') = RoleState.rejected) := by
  have hid' : (credentialId == "") = false := by simpa using hid
  rw [revokeVc_recruiter_success st credentialId issuerDid reason cred recruiter tx env
    hid' hfound hrc hrec hledger hb1 hb2]
  have hmem : recruiter ∈ st.recruiters := List.mem_of_find?_eq_some hrec
  have hpood : (recruiter.rid == recruiter.rid) = true := by simp
  constructor
  · rcases updateFirst_exists_of_mem
      (p := fun r => r.rid == recruiter.rid)
      (f := fun r => { r with badge := { r.badge with
          verified := false, status := some BadgeStatus.Revoked, revokedAt := true,
          revokeReason := some (reasonOrUnspecified reason),
          revocationTxHash := some tx.txHash, network := some tx.network } })
      hmem hpood with ⟨z, hz, hpz, hfz⟩
    have hzr : z = recruiter :=
      filter_le_one_unique hone hz hpz hmem hpood
    subst hzr
    refine ⟨_, hfz, rfl, rfl, hkyc, ?_, ?_⟩
    · simp [computeRecruiterRoleState, honb]
    · simp [syncRecruiterRole, computeRecruiterRoleState, honb]
  · have hall := updateFirst_forall_mem
      (p := fun r => r.rid == recruiter.rid)
      (f := fun r => { r with badge := { r.badge with
          verified := false, status := some BadgeStatus.Revoked, revokedAt := true,
          revokeReason := some (reasonOrUnspecified reason),
          revocationTxHash := some tx.txHash, network := some tx.network } })
      (Q := fun r' => r'.badge.status = some BadgeStatus.Revoked
        ∧ computeRecruiterRoleState (some r') = RoleState.rejected)
      st.recruiters hone ?_
    · intro r' hr' hrid
      exact hall r' hr' (by simpa using hrid)
    · intro x hx hpx
      have hxr : x = recruiter := filter_le_one_unique hone hx hpx hmem hpood
      subst hxr
      exact ⟨rfl, by simp [computeRecruiterRoleState, honb]⟩

/-- C7 witness: the scenario on the concrete trust store: after revoking the
organisation's trust credential the badge is `Revoked` and the recomputed
role state is `rejected`. -/
theorem claim_C7_witness :
    (∃ r', r' ∈ (revokeVc storeTrust ("urn:securehire:vc:rc") issuerTestDid ("fraud")
          envAllOk).2.recruiters
        ∧ r'.rid = recruiterApprovedActive.rid
        ∧ r'.badge.status = some BadgeStatus.Revoked
        ∧ r'.kycStatus = KycStatus.approved
        ∧ computeRecruiterRoleState (some r') = RoleState.rejected
        ∧ syncRecruiterRole RoleState.active (some r') = RoleState.rejected)
    ∧ (∀ r' ∈ (revokeVc storeTrust ("urn:securehire:vc:rc") issuerTestDid ("fraud")
          envAllOk).2.recruiters,
        r'.rid = recruiterApprovedActive.rid →
          r'.badge.status = some BadgeStatus.Revoked
          ∧ computeRecruiterRoleState (some r') = RoleState.rejected) :=
  claim_C7_trust_revocation_rejects_role storeTrust ("urn:securehire:vc:rc")
    issuerTestDid ("fraud") credTrust recruiterApprovedActive txTest envAllOk
    (by decide) (by decide) (by decide) (by decide) (by decide) (by decide)
    (by decide) (by decide) (by decide) (by decide) (by decide) (by decide)

/-! ## DID immutability under onboarding (C9) -/

theorem setEmailFromSession_sid (session : Session) (doc : Seeker) :
    (setEmailFromSession session doc).sid = doc.sid := by
  unfold setEmailFromSession; split <;> rfl

theorem setEmailFromSession_did (session : Session) (doc : Seeker) :
    (setEmailFromSession session doc).did = doc.did := by
  unfold setEmailFromSession; split <;> rfl

theorem assignDidIfEmpty_sid (d : Option String) (doc : Seeker) :
    (assignDidIfEmpty d doc).sid = doc.sid := by
  unfold assignDidIfEmpty; split <;> rfl

theorem assignDidIfEmpty_did_of_truthy (d : Option String) (doc : Seeker)
    (h : truthy doc.did = true) :
    (assignDidIfEmpty d doc).did = doc.did := by
  unfold assignDidIfEmpty
  rw [if_neg (by simp [h])]

theorem applyProfileFields_sid (body : OnboardBody) (doc : Seeker) :
    (applyProfileFields body doc).sid = doc.sid := by
  unfold applyProfileFields
  cases body.onboarded <;> rfl

theorem applyProfileFields_did (body : OnboardBody) (doc : Seeker) :
    (applyProfileFields body doc).did = doc.did := by
  unfold applyProfileFields
  cases body.onboarded <;> rfl

theorem applyLegacyFields_sid (body : LegacyOnboardBody) (doc : Seeker) :
    (applyLegacyFields body doc).sid = doc.sid := by
  unfold applyLegacyFields
  cases body.onboarded <;> rfl

theorem applyLegacyFields_did (body : LegacyOnboardBody) (doc : Seeker) :
    (applyLegacyFields body doc).did = doc.did := by
  unfold applyLegacyFields
  cases body.onboarded <;> rfl

theorem mem_of_if_find?_eq_some {c : Bool} {p : α → Bool} {l : List α} {d : α}
    (h : (if c = true then l.find? p else none) = some d) : d ∈ l := by
  by_cases hc : c = true
  · rw [if_pos hc] at h
    exact List.mem_of_find?_eq_some h
  · rw [if_neg hc] at h
    simp at h

theorem resolveSeeker_mem {seekers : List Seeker} {idy : Identity} {d0 : Seeker}
    (h : resolveSeeker seekers idy = some d0) : d0 ∈ seekers := by
  unfold resolveSeeker at h
  split at h
  · rename_i heq
    injection h with h1
    subst h1
    exact mem_of_if_find?_eq_some heq
  · split at h
    · rename_i heq
      injection h with h1
      subst h1
      exact mem_of_if_find?_eq_some heq
    · by_cases he : truthy idy.email = true
      · rw [if_pos he] at h
        exact List.mem_of_find?_eq_some h
      · rw [if_neg he] at h
        simp at h

theorem findSeekerBySession_mem {seekers : List Seeker} {session : Session} {d0 : Seeker}
    (h : findSeekerBySession seekers session = some (some d0)) : d0 ∈ seekers := by
  unfold findSeekerBySession at h
  split at h
  · simp at h
  · injection h with h1
    exact resolveSeeker_mem h1

theorem sessionOnboard_seekers_cases (st : Store) (session : Session) (body : OnboardBody)
    (newSid : String) :
    (sessionOnboard st session body newSid).2.seekers = st.seekers
    ∨ (∃ doc : Seeker, doc.sid = newSid
        ∧ (sessionOnboard st session body newSid).2.seekers = st.seekers ++ [doc])
    ∨ (∃ d0 doc, d0 ∈ st.seekers ∧ doc.sid = d0.sid
        ∧ (truthy d0.did = true → doc.did = d0.did)
        ∧ (sessionOnboard st session body newSid).2.seekers
            = updateFirst (fun x => x.sid == doc.sid) (fun _ => doc) st.seekers) := by
  unfold sessionOnboard
  by_cases hname : (body.name.trim == "") = true
  · rw [if_pos hname]; exact Or.inl rfl
  · rw [if_neg hname]
    cases hfind : findSeekerBySession st.seekers session with
    | none => exact Or.inl rfl
    | some found =>
      cases found with
      | none =>
        right; left
        refine ⟨applyProfileFields body (assignDidIfEmpty (deriveDidFromSession session)
          (setEmailFromSession session (newSeekerFromSession session body newSid))), ?_, rfl⟩
        rw [applyProfileFields_sid, assignDidIfEmpty_sid, setEmailFromSession_sid]
        rfl
      | some d0 =>
        right; right
        refine ⟨d0, applyProfileFields body (assignDidIfEmpty (deriveDidFromSession session)
          (setEmailFromSession session d0)), findSeekerBySession_mem hfind, ?_, ?_, rfl⟩
        · rw [applyProfileFields_sid, assignDidIfEmpty_sid, setEmailFromSession_sid]
        · intro htr
          have h1 : truthy (setEmailFromSession session d0).did = true := by
            rw [setEmailFromSession_did]; exact htr
          rw [applyProfileFields_did, assignDidIfEmpty_did_of_truthy _ _ h1,
            setEmailFromSession_did]

theorem legacyOnboard_seekers_cases (st : Store) (body : LegacyOnboardBody)
    (newSid : String) :
    (legacyOnboard st body newSid).2.seekers = st.seekers
    ∨ (∃ doc : Seeker, doc.sid = newSid
        ∧ (legacyOnboard st body newSid).2.seekers = st.seekers ++ [doc])
    ∨ (∃ d0 doc, d0 ∈ st.seekers ∧ doc.sid = d0.sid
        ∧ (truthy d0.did = true → doc.did = d0.did)
        ∧ (legacyOnboard st body newSid).2.seekers
            = updateFirst (fun x => x.sid == doc.sid) (fun _ => doc) st.seekers) := by
  unfold legacyOnboard
  by_cases hbad : (body.email == "" || body.name == "") = true
  · rw [if_pos hbad]; exact Or.inl rfl
  · rw [if_neg hbad]
    cases hfind : st.seekers.find? (fun x =>
        (truthy body.did && x.did == body.did) || x.email == body.email) with
    | none =>
      right; left
      refine ⟨applyLegacyFields body (assignDidIfEmpty body.did (newSeekerLegacy body newSid)),
        ?_, rfl⟩
      rw [applyLegacyFields_sid, assignDidIfEmpty_sid]
      rfl
    | some d0 =>
      right; right
      refine ⟨d0, applyLegacyFields body (assignDidIfEmpty body.did d0),
        List.mem_of_find?_eq_some hfind, ?_, ?_, rfl⟩
      · rw [applyLegacyFields_sid, assignDidIfEmpty_sid]
      · intro htr
        rw [applyLegacyFields_did, assignDidIfEmpty_did_of_truthy _ _ htr]

/-- C9: for every holder record whose DID is already set (nonempty), any later
onboarding call — session-derived or legacy, with any session and body,
including a different DID or wallet address — leaves that record's stored DID
unchanged. -/
theorem claim_C9_did_immutable (st : Store) (session : Session) (body : OnboardBody)
    (lbody : LegacyOnboardBody) (newSid : String) (s : Seeker) (d : String)
    (hnodup : (st.seekers.map (fun x => x.sid)).Nodup)
    (hfresh : newSid ∉ st.seekers.map (fun x => x.sid))
    (hs : s ∈ st.seekers) (hd : s.did = some d) (hdne : d ≠ "") :
    (∀ s' ∈ (sessionOnboard st session body newSid).2.seekers,
        s'.sid = s.sid → s'.did = some d)
    ∧ (∀ s' ∈ (legacyOnboard st lbody newSid).2.seekers,
        s'.sid = s.sid → s'.did = some d) := by
  have hbase : ∀ s' ∈ st.seekers, s'.sid = s.sid → s'.did = some d := by
    intro s' hs' hsid
    have : s' = s := List.inj_on_of_nodup_map hnodup hs' hs hsid
    rw [this, hd]
  have hgen : ∀ res : List Seeker,
      (res = st.seekers
        ∨ (∃ doc : Seeker, doc.sid = newSid ∧ res = st.seekers ++ [doc])
        ∨ (∃ d0 doc, d0 ∈ st.seekers ∧ doc.sid = d0.sid
            ∧ (truthy d0.did = true → doc.did = d0.did)
            ∧ res = updateFirst (fun x => x.sid == doc.sid) (fun _ => doc) st.seekers)) →
      ∀ s' ∈ res, s'.sid = s.sid → s'.did = some d := by
    rintro res (rfl | ⟨doc, hdoc, rfl⟩ | ⟨d0, doc, hd0, hdsid, himp, rfl⟩) s' hs' hsid
    · exact hbase s' hs' hsid
    · rcases List.mem_append.mp hs' with h | h
      · exact hbase s' h hsid
      · exfalso
        have hsd : s' = doc := by simpa using h
        apply hfresh
        have : newSid = s.sid := by rw [← hdoc, ← hsd]; exact hsid
        rw [this]
        exact List.mem_map_of_mem _ hs
    · rcases mem_updateFirst hs' with h | ⟨x, _, _, hx⟩
      · exact hbase s' h hsid
      · have hsd : s' = doc := hx
        have hd0s : d0 = s := by
          apply List.inj_on_of_nodup_map hnodup hd0 hs
          rw [← hdsid, ← hsd]
          exact hsid
        have htr : truthy d0.did = true := by
          rw [hd0s, hd]
          simp [truthy, hdne]
        rw [hsd, himp htr, hd0s, hd]
  exact ⟨hgen _ (sessionOnboard_seekers_cases st session body newSid),
    hgen _ (legacyOnboard_seekers_cases st lbody newSid)⟩

/-- C9 witness: onboarding the existing holder again, with a session carrying a
different provider DID and wallet and with a legacy body carrying a different
DID, leaves the stored DID unchanged. -/
theorem claim_C9_witness :
    (∀ s' ∈ (sessionOnboard storePersonal sessionConflicting bodyTest ("s2")).2.seekers,
        s'.sid = seekerHolder.sid → s'.did = some holderDid)
    ∧ (∀ s' ∈ (legacyOnboard storePersonal lbodyTest ("s2")).2.seekers,
        s'.sid = seekerHolder.sid → s'.did = some holderDid) :=
  claim_C9_did_immutable storePersonal sessionConflicting bodyTest lbodyTest ("s2")
    seekerHolder holderDid (by decide) (by decide) (by decide) (by decide) (by decide)

/-! ## Two-phase badge issuance (C5) -/

theorem approveRecruiter_success (st : Store) (issuerDid recruiterId vcId vcRaw : String)
    (vctype : List String) (tx : TxResult) (recruiter : Recruiter)
    (hiss : st.issuers.contains issuerDid = true)
    (hrec : st.recruiters.find? (fun r => r.rid == recruiterId) = some recruiter)
    (hdup : st.credentials.any (fun c => c.credentialId == vcId) = false) :
    approveRecruiter st issuerDid recruiterId (LedgerOutcome.ok tx)
        (SignOutcome.ok vcId vcRaw vctype)
      = (ApproveResult.ok vcId tx.txHash,
         { st with
            credentials := st.credentials ++ [{
              credentialId := vcId, subjectDid := recruiter.did, issuerDid := issuerDid,
              type := vctype, status := CredStatus.active, revokedAt := false,
              revokeReason := none, onChainTxHash := some tx.txHash,
              revocationTxHash := none, network := some tx.network,
              vcRaw := some vcRaw }],
            recruiters := updateFirst (fun r => r.rid == recruiterId)
              (fun r => { r with
                kycStatus := KycStatus.approved,
                badge := {
                  verified := true, status := some BadgeStatus.Active,
                  level := some 1, txHash := some tx.txHash, network := some tx.network,
                  credentialId := some vcId, revokedAt := false, revokeReason := none,
                  revocationTxHash := none } }) st.recruiters }) := by
  have hiss' : issuerDid ∈ st.issuers := contains_iff_mem.mp hiss
  unfold approveRecruiter
  simp [hiss', hrec, hdup]

/-- C5 counterexample: the ledger call succeeds but the subsequent credential
signing fails; the operation fails with nothing written, so the local badge
projection does NOT show verified = true afterwards, contradicting the claim's
ledger-success conclusion. -/
theorem claim_C5_counterexample :
    approveRecruiter storeApprove issuerTestDid ("r2") (LedgerOutcome.ok txTest)
        SignOutcome.fail
      = (ApproveResult.serverError, storeApprove)
    ∧ (∀ r ∈ (approveRecruiter storeApprove issuerTestDid ("r2") (LedgerOutcome.ok txTest)
          SignOutcome.fail).2.recruiters, r.badge.verified = false) :=
  ⟨by decide, by decide⟩

/-- C5 (amended): the ledger call precedes every local write: when the ledger
call fails the operation fails and the whole store — hence the recruiter's
badge projection and KYC status — is unchanged; when the ledger call succeeds
AND the subsequent credential signing and credential creation also succeed,
the recruiter's projection afterwards has verified = true, status Active, and
a transaction reference equal to the ledger call's result. -/
theorem claim_C5_two_phase (st : Store) (issuerDid recruiterId : String)
    (signing : SignOutcome) (vcId vcRaw : String) (vctype : List String)
    (tx : TxResult) (recruiter : Recruiter)
    (hrec : st.recruiters.find? (fun r => r.rid == recruiterId) = some recruiter)
    (hone : (st.recruiters.filter (fun r => r.rid == recruiterId)).length ≤ 1)
    (hiss : st.issuers.contains issuerDid = true)
    (hdup : st.credentials.any (fun c => c.credentialId == vcId) = false) :
    ((approveRecruiter st issuerDid recruiterId LedgerOutcome.fail signing).2 = st
      ∧ ∀ v t, (approveRecruiter st issuerDid recruiterId LedgerOutcome.fail signing).1
          ≠ ApproveResult.ok v t)
    ∧ (approveRecruiter st issuerDid recruiterId (LedgerOutcome.ok tx)
          (SignOutcome.ok vcId vcRaw vctype)).1 = ApproveResult.ok vcId tx.txHash
    ∧ (∃ r', r' ∈ (approveRecruiter st issuerDid recruiterId (LedgerOutcome.ok tx)
          (SignOutcome.ok vcId vcRaw vctype)).2.recruiters
        ∧ r'.rid = recruiterId
        ∧ r'.badge.verified = true ∧ r'.badge.status = some BadgeStatus.Active
        ∧ r'.badge.txHash = some tx.txHash ∧ r'.kycStatus = KycStatus.approved)
    ∧ (∀ r' ∈ (approveRecruiter st issuerDid recruiterId (LedgerOutcome.ok tx)
          (SignOutcome.ok vcId vcRaw vctype)).2.recruiters,
        r'.rid = recruiterId →
          r'.badge.verified = true ∧ r'.badge.status = some BadgeStatus.Active
          ∧ r'.badge.txHash = some tx.txHash ∧ r'.kycStatus = KycStatus.approved) := by
  have happ := approveRecruiter_success st issuerDid recruiterId vcId vcRaw vctype tx
    recruiter hiss hrec hdup
  refine ⟨?_, ?_, ?_, ?_⟩
  · unfold approveRecruiter
    split
    · exact ⟨rfl, by intro v t h; cases h⟩
    · split
      · exact ⟨rfl, by intro v t h; cases h⟩
      · exact ⟨rfl, by intro v t h; cases h⟩
  · rw [happ]
  · rw [happ]
    have hmem : recruiter ∈ st.recruiters := List.mem_of_find?_eq_some hrec
    have hp : (recruiter.rid == recruiterId) = true :=
      List.find?_some (p := fun r : Recruiter => r.rid == recruiterId) hrec
    rcases updateFirst_exists_of_mem
      (p := fun r => r.rid == recruiterId)
      (f := fun r : Recruiter => { r with
        kycStatus := KycStatus.approved,
        badge := {
          verified := true, status := some BadgeStatus.Active,
          level := some 1, txHash := some tx.txHash, network := some tx.network,
          credentialId := some vcId, revokedAt := false, revokeReason := none,
          revocationTxHash := none } })
      hmem hp with ⟨z, _, hpz, hfz⟩
    exact ⟨_, hfz, by simpa using hpz, rfl, rfl, rfl, rfl⟩
  · rw [happ]
    have hall := updateFirst_forall_mem
      (p := fun r => r.rid == recruiterId)
      (f := fun r : Recruiter => { r with
        kycStatus := KycStatus.approved,
        badge := {
          verified := true, status := some BadgeStatus.Active,
          level := some 1, txHash := some tx.txHash, network := some tx.network,
          credentialId := some vcId, revokedAt := false, revokeReason := none,
          revocationTxHash := none } })
      (Q := fun r' => r'.badge.verified = true ∧ r'.badge.status = some BadgeStatus.Active
        ∧ r'.badge.txHash = some tx.txHash ∧ r'.kycStatus = KycStatus.approved)
      st.recruiters hone (by intro x _ _; exact ⟨rfl, rfl, rfl, rfl⟩)
    intro r' hr' hrid
    exact hall r' hr' (by simpa using hrid)

/-- C5 witness: the two-phase discipline on the concrete store: ledger failure
leaves the pending recruiter untouched; ledger plus signing success yields the
Active verified projection carrying the ledger transaction hash. -/
theorem claim_C5_witness :
    ((approveRecruiter storeApprove issuerTestDid ("r2") LedgerOutcome.fail
        SignOutcome.fail).2 = storeApprove
      ∧ ∀ v t, (approveRecruiter storeApprove issuerTestDid ("r2") LedgerOutcome.fail
          SignOutcome.fail).1 ≠ ApproveResult.ok v t)
    ∧ (approveRecruiter storeApprove issuerTestDid ("r2") (LedgerOutcome.ok txTest)
          (SignOutcome.ok ("urn:securehire:vc:new") ("doc-new")
            ["VerifiableCredential", "RecruiterCredential"])).1
        = ApproveResult.ok ("urn:securehire:vc:new") txTest.txHash
    ∧ (∃ r', r' ∈ (approveRecruiter storeApprove issuerTestDid ("r2")
          (LedgerOutcome.ok txTest)
          (SignOutcome.ok ("urn:securehire:vc:new") ("doc-new")
            ["VerifiableCredential", "RecruiterCredential"])).2.recruiters
        ∧ r'.rid = ("r2")
        ∧ r'.badge.verified = true ∧ r'.badge.status = some BadgeStatus.Active
        ∧ r'.badge.txHash = some txTest.txHash ∧ r'.kycStatus = KycStatus.approved)
    ∧ (∀ r' ∈ (approveRecruiter storeApprove issuerTestDid ("r2")
          (LedgerOutcome.ok txTest)
          (SignOutcome.ok ("urn:securehire:vc:new") ("doc-new")
            ["VerifiableCredential", "RecruiterCredential"])).2.recruiters,
        r'.rid = ("r2") →
          r'.badge.verified = true ∧ r'.badge.status = some BadgeStatus.Active
          ∧ r'.badge.txHash = some txTest.txHash ∧ r'.kycStatus = KycStatus.approved) :=
  claim_C5_two_phase storeApprove issuerTestDid ("r2") SignOutcome.fail
    ("urn:securehire:vc:new") ("doc-new") ["VerifiableCredential", "RecruiterCredential"]
    txTest recruiterPendingKyc (by decide) (by decide) (by decide) (by decide)

/-! ## Sharing is a silent ownership filter plus upsert (C4) -/

theorem upsertFold_nil (a : String) (j : Option String) (s r : String)
    (docFn : String → Option String) (ps : List SharedProof) :
    upsertFold a j s r docFn ps [] = ps := rfl

theorem upsertFold_cons (a : String) (j : Option String) (s r : String)
    (docFn : String → Option String) (ps : List SharedProof) (x : String)
    (xs : List String) :
    upsertFold a j s r docFn ps (x :: xs)
      = upsertFold a j s r docFn (upsertProof ps a j x s r (docFn x)) xs := rfl

theorem upsertProof_exists (ps : List SharedProof) (a : String) (j : Option String)
    (v s r : String) (doc : Option String) :
    ∃ q, q ∈ upsertProof ps a j v s r doc
      ∧ q.applicationId = a ∧ q.vcId = v ∧ q.revealedDocument = doc := by
  unfold upsertProof
  by_cases hany : ps.any (proofKeyMatches a v) = true
  · rw [if_pos hany]
    rcases List.any_eq_true.mp hany with ⟨x, hx, hpx⟩
    rcases updateFirst_exists_of_mem
      (f := mkOrSetProof a j v s r doc) hx hpx with ⟨z, _, _, hfz⟩
    exact ⟨_, hfz, rfl, rfl, rfl⟩
  · rw [if_neg hany]
    exact ⟨_, List.mem_append_right _ (List.mem_singleton_self _), rfl, rfl, rfl⟩

theorem upsertProof_preserve (ps : List SharedProof) (a : String) (j : Option String)
    (v s r : String) (doc : Option String) {q : SharedProof}
    (hq : q ∈ ps) (hne : proofKeyMatches a v q = false) :
    q ∈ upsertProof ps a j v s r doc := by
  unfold upsertProof
  by_cases hany : ps.any (proofKeyMatches a v) = true
  · rw [if_pos hany]
    exact mem_updateFirst_of_not_pred hq hne
  · rw [if_neg hany]
    exact List.mem_append_left _ hq

theorem mem_upsertProof {ps : List SharedProof} {a : String} {j : Option String}
    {v s r : String} {doc : Option String} {q : SharedProof}
    (hq : q ∈ upsertProof ps a j v s r doc) :
    q ∈ ps ∨ (q.applicationId = a ∧ q.vcId = v) := by
  unfold upsertProof at hq
  by_cases hany : ps.any (proofKeyMatches a v) = true
  · rw [if_pos hany] at hq
    rcases mem_updateFirst hq with h | ⟨x, _, _, hx⟩
    · exact Or.inl h
    · right
      rw [hx]
      exact ⟨rfl, rfl⟩
  · rw [if_neg hany] at hq
    rcases List.mem_append.mp hq with h | h
    · exact Or.inl h
    · right
      have hqe : q = mkOrSetProof a j v s r doc emptyProof := by simpa using h
      rw [hqe]
      exact ⟨rfl, rfl⟩

theorem upsertFold_inv (a : String) (j : Option String) (s r : String)
    (docFn : String → Option String) (v : String) :
    ∀ (ids : List String) (ps : List SharedProof),
      (∃ q, q ∈ ps ∧ q.applicationId = a ∧ q.vcId = v ∧ q.revealedDocument = docFn v) →
      ∃ q, q ∈ upsertFold a j s r docFn ps ids
        ∧ q.applicationId = a ∧ q.vcId = v ∧ q.revealedDocument = docFn v := by
  intro ids
  induction ids with
  | nil => intro ps h; exact h
  | cons x xs ih =>
    intro ps h
    rw [upsertFold_cons]
    apply ih
    by_cases hvx : x = v
    · subst hvx
      exact upsertProof_exists ps a j x s r (docFn x)
    · rcases h with ⟨q, hq, hqa, hqv, hqd⟩
      refine ⟨q, upsertProof_preserve ps a j x s r (docFn x) hq ?_, hqa, hqv, hqd⟩
      have hne : (q.vcId == x) = false := by
        rw [hqv]
        exact beq_eq_false_iff_ne.mpr (fun h2 => hvx h2.symm)
      simp [proofKeyMatches, hne]

theorem upsertFold_exists (a : String) (j : Option String) (s r : String)
    (docFn : String → Option String) :
    ∀ (ids : List String) (ps : List SharedProof), ∀ v ∈ ids,
      ∃ q, q ∈ upsertFold a j s r docFn ps ids
        ∧ q.applicationId = a ∧ q.vcId = v ∧ q.revealedDocument = docFn v := by
  intro ids
  induction ids with
  | nil => intro ps v hv; simp at hv
  | cons x xs ih =>
    intro ps v hv
    rw [upsertFold_cons]
    rcases List.mem_cons.mp hv with rfl | hv'
    · exact upsertFold_inv a j s r docFn v xs _
        (upsertProof_exists ps a j v s r (docFn v))
    · exact ih _ v hv'

theorem upsertFold_vcIds_subset (a : String) (j : Option String) (s r : String)
    (docFn : String → Option String) (sel : List String) :
    ∀ ids : List String, (∀ x ∈ ids, x ∈ sel) →
      ∀ ps : List SharedProof, (∀ q ∈ ps, q.applicationId = a → q.vcId ∈ sel) →
      ∀ q ∈ upsertFold a j s r docFn ps ids, q.applicationId = a → q.vcId ∈ sel := by
  intro ids
  induction ids with
  | nil => intro _ ps h; exact h
  | cons x xs ih =>
    intro hsub ps h
    rw [upsertFold_cons]
    refine ih (fun y hy => hsub y (List.mem_cons_of_mem _ hy)) _ ?_
    intro q hq hqa
    rcases mem_upsertProof hq with hmem | ⟨_, hqv⟩
    · exact h q hmem hqa
    · rw [hqv]
      exact hsub x (List.mem_cons_self _ _)

theorem mem_validSharedSelection (creds0 : List Credential) (requested : List String)
    (seekerDid : String) (v : String) :
    v ∈ validSharedSelection creds0 requested seekerDid ↔
      (v ∈ requested ∧ ∃ c, c ∈ creds0 ∧ c.credentialId = v
        ∧ c.subjectDid = seekerDid ∧ c.status = CredStatus.active) := by
  unfold validSharedSelection ownedActiveCreds
  rw [List.mem_filter]
  constructor
  · rintro ⟨hreq, hsome⟩
    refine ⟨hreq, ?_⟩
    rw [List.find?_isSome] at hsome
    rcases hsome with ⟨c, hc, hcv⟩
    rw [List.mem_filter] at hc
    rcases hc with ⟨hc0, hcond⟩
    have hcv' : c.credentialId = v := by simpa using hcv
    simp only [Bool.and_eq_true, beq_iff_eq] at hcond
    exact ⟨c, hc0, hcv', hcond.1.2, hcond.2⟩
  · rintro ⟨hreq, c, hc0, hcid, hsubj, hact⟩
    refine ⟨hreq, ?_⟩
    rw [List.find?_isSome]
    refine ⟨c, ?_, by simpa using hcid⟩
    rw [List.mem_filter]
    refine ⟨hc0, ?_⟩
    simp only [Bool.and_eq_true, beq_iff_eq]
    exact ⟨⟨contains_iff_mem.mpr (hcid ▸ hreq), hsubj⟩, hact⟩

theorem sharedVcsPatch_eq (st : Store) (sessionDid appId : String)
    (requested : List String) (app : Application)
    (happ : st.applications.find? (fun a => a.appId == appId) = some app)
    (hown : app.seekerDid = sessionDid) (hsub : app.status = AppStatus.submitted) :
    sharedVcsPatch st sessionDid appId requested =
      (PatchResult.ok (validSharedSelection st.credentials requested app.seekerDid),
       { st with
          sharedProofs := upsertFold app.appId (some app.jobId) app.seekerDid
            app.recruiterDid (docForSelected st.credentials requested app.seekerDid)
            (st.sharedProofs.filter (fun p => !(p.applicationId == app.appId
              && !((validSharedSelection st.credentials requested
                    app.seekerDid).contains p.vcId))))
            (validSharedSelection st.credentials requested app.seekerDid),
          applications := updateFirst (fun a => a.appId == appId)
            (fun a => { a with sharedVcIds :=
              validSharedSelection st.credentials requested app.seekerDid })
            st.applications }) := by
  have h1 : (app.seekerDid != sessionDid) = false := by simp [hown]
  have h2 : (app.status != AppStatus.submitted) = false := by simp [hsub]
  unfold sharedVcsPatch
  rw [happ]
  simp [h1, h2]

/-- C4 counterexample: holder H re-shares credential C after C was revoked.
The claim says the attempt fails with a NotOwned-class error; the route
instead succeeds (ok with the empty accepted list) and silently drops C,
deleting its disclosure record. -/
theorem claim_C4_counterexample :
    credRevoked.subjectDid = holderDid
    ∧ credRevoked.status = CredStatus.revoked
    ∧ (sharedVcsPatch storeRevokedShare holderDid ("app9")
        ["urn:securehire:vc:bbb"]).1 = PatchResult.ok []
    ∧ (sharedVcsPatch storeRevokedShare holderDid ("app9")
        ["urn:securehire:vc:bbb"]).2.sharedProofs = [] := by
  refine ⟨rfl, rfl, by decide, by decide⟩

/-- C4 (amended): sharing never fails with a NotOwned-class error: the request
is silently filtered to the ids with a credential owned by the sharing holder
and currently active; the de-selected or non-qualifying disclosures for the
context are removed; for every accepted id sharing is an upsert keyed on
(applicationId, credentialId) — re-sharing an already-shared pair succeeds —
and afterwards a disclosure for the pair holds the current signed document. -/
theorem claim_C4_share_silent_filter_upsert (st : Store) (sessionDid appId : String)
    (requested : List String) (app : Application)
    (happ : st.applications.find? (fun a => a.appId == appId) = some app)
    (hown : app.seekerDid = sessionDid) (hsub : app.status = AppStatus.submitted) :
    (sharedVcsPatch st sessionDid appId requested).1
        = PatchResult.ok (validSharedSelection st.credentials requested app.seekerDid)
    ∧ (∀ v, v ∈ validSharedSelection st.credentials requested app.seekerDid ↔
        (v ∈ requested ∧ ∃ c, c ∈ st.credentials ∧ c.credentialId = v
          ∧ c.subjectDid = app.seekerDid ∧ c.status = CredStatus.active))
    ∧ (∀ v ∈ validSharedSelection st.credentials requested app.seekerDid,
        ∃ q, q ∈ (sharedVcsPatch st sessionDid appId requested).2.sharedProofs
          ∧ q.applicationId = app.appId ∧ q.vcId = v
          ∧ q.revealedDocument = docForSelected st.credentials requested app.seekerDid v)
    ∧ (∀ q ∈ (sharedVcsPatch st sessionDid appId requested).2.sharedProofs,
        q.applicationId = app.appId →
          q.vcId ∈ validSharedSelection st.credentials requested app.seekerDid) := by
  have heq := sharedVcsPatch_eq st sessionDid appId requested app happ hown hsub
  refine ⟨by rw [heq], fun v => mem_validSharedSelection _ _ _ v, ?_, ?_⟩
  · rw [heq]
    intro v hv
    exact upsertFold_exists app.appId (some app.jobId) app.seekerDid app.recruiterDid
      (docForSelected st.credentials requested app.seekerDid) _ _ v hv
  · rw [heq]
    intro q hq hqa
    refine upsertFold_vcIds_subset app.appId (some app.jobId) app.seekerDid
      app.recruiterDid (docForSelected st.credentials requested app.seekerDid)
      (validSharedSelection st.credentials requested app.seekerDid)
      (validSharedSelection st.credentials requested app.seekerDid)
      (fun x hx => hx) _ ?_ q hq hqa
    intro q2 hq2 hq2a
    have hcond := (List.mem_filter.mp hq2).2
    cases hc : ((validSharedSelection st.credentials requested
        app.seekerDid).contains q2.vcId) with
    | true => exact contains_iff_mem.mp hc
    | false =>
      exfalso
      have hA : (q2.applicationId == app.appId) = true := by simpa using hq2a
      rw [hA, hc] at hcond
      simp at hcond

/-- C4 witness: re-sharing the already-shared active credential on the
concrete store succeeds and overwrites the stored disclosure with the current
raw document. -/
theorem claim_C4_witness :
    (sharedVcsPatch storePersonal holderDid ("app1") ["urn:securehire:vc:aaa"]).1
        = PatchResult.ok (validSharedSelection storePersonal.credentials
            ["urn:securehire:vc:aaa"] appX.seekerDid)
    ∧ (∀ v, v ∈ validSharedSelection storePersonal.credentials
          ["urn:securehire:vc:aaa"] appX.seekerDid ↔
        (v ∈ (["urn:securehire:vc:aaa"] : List String)
          ∧ ∃ c, c ∈ storePersonal.credentials ∧ c.credentialId = v
            ∧ c.subjectDid = appX.seekerDid ∧ c.status = CredStatus.active))
    ∧ (∀ v ∈ validSharedSelection storePersonal.credentials
          ["urn:securehire:vc:aaa"] appX.seekerDid,
        ∃ q, q ∈ (sharedVcsPatch storePersonal holderDid ("app1")
            ["urn:securehire:vc:aaa"]).2.sharedProofs
          ∧ q.applicationId = appX.appId ∧ q.vcId = v
          ∧ q.revealedDocument = docForSelected storePersonal.credentials
              ["urn:securehire:vc:aaa"] appX.seekerDid v)
    ∧ (∀ q ∈ (sharedVcsPatch storePersonal holderDid ("app1")
          ["urn:securehire:vc:aaa"]).2.sharedProofs,
        q.applicationId = appX.appId →
          q.vcId ∈ validSharedSelection storePersonal.credentials
            ["urn:securehire:vc:aaa"] appX.seekerDid) :=
  claim_C4_share_silent_filter_upsert storePersonal holderDid ("app1")
    ["urn:securehire:vc:aaa"] appX (by decide) (by decide) (by decide)

end SecureHire
